import Mathlib

/-!
# multi-bss experiment controller (`multiupdated.cc`)

A shallow embedding of the experiment controller: the reception-outcome
classifier (`CheckStats`), the per-cell metric computation
(`CalculateThroughputAndSuccess`), the identity resolver
(`MacAddressToNodeId`), the association controller (`CheckAssociation`,
driven by the simulator's event queue), the topology generation of `main`
(access-point grid, `disc` placement, `generateRandomPointInCircle`), the
workload loop and the standard/frequency selection.

Conventions.
* C++ `double` values are embedded as rationals (exact arithmetic).
* `uint32_t` counters are naturals reduced modulo `2^32` where they are
  incremented.
* Simulated time is a rational number of seconds.
* An `NS_ABORT_MSG` / out-of-range container access is an explicit result
  constructor.
* The placement code is embedded over an ordered field with the `<cmath>`
  functions passed in; the theorems instantiate it with the reals.
* A loop that need not terminate takes a bound on its iterations and
  returns `none` when the bound is reached.
-/

namespace MultiBss

/-! ## Outcome classifier: `CheckStats` -/

/-- A PPDU reception record as read by `CheckStats`.  Times are in
nanoseconds (the resolution of the simulator clock).  `m_reason` is `none`
exactly when the C++ test `if (record.m_reason)` is false; otherwise it holds
the text that `<< record.m_reason` prints. -/
structure WifiPpduRxRecord where
  m_startTime : Int
  m_endTime : Int
  m_senderId : Nat
  m_reason : Option String
  m_statusPerMpdu : List Bool
deriving DecidableEq, Repr

/-- Conversion `Time::GetMilliSeconds`: integer division of the nanosecond
count, truncating toward zero. -/
def GetMilliSeconds (t : Int) : Int := Int.tdiv t 1000000

/-- One data row of `tx-timeline.txt`: the four comma separated fields. -/
structure TimelineRow where
  startTime : Int
  endTime : Int
  sourceNode : Nat
  dropReason : String
deriving DecidableEq, Repr

/-- Content of `tx-timeline.txt`: the header line and the data rows. -/
structure TxTimeline where
  header : String
  rows : List TimelineRow
deriving DecidableEq, Repr

/-- The inner loop of `CheckStats`: `allSuccess` starts `true` and is cleared
by every `false` status. -/
def allSuccessLoop (statusPerMpdu : List Bool) : Bool :=
  statusPerMpdu.foldl (fun allSuccess status => if !status then false else allSuccess) true

/-- Body of the record loop of `CheckStats`: the row written for one record. -/
def CheckStats.body (record : WifiPpduRxRecord) : TimelineRow :=
  match record.m_reason with
  | some reason =>
      ⟨GetMilliSeconds record.m_startTime, GetMilliSeconds record.m_endTime,
        record.m_senderId, reason⟩
  | none =>
      if allSuccessLoop record.m_statusPerMpdu then
        ⟨GetMilliSeconds record.m_startTime, GetMilliSeconds record.m_endTime,
          record.m_senderId, "success"⟩
      else
        ⟨GetMilliSeconds record.m_startTime, GetMilliSeconds record.m_endTime,
          record.m_senderId, "PayloadDecodeError"⟩

/-- The function `CheckStats`: writes the header, then appends one row per
record while iterating over the reception records. -/
def CheckStats (records : List WifiPpduRxRecord) : TxTimeline :=
  records.foldl
    (fun outFile record => { outFile with rows := outFile.rows ++ [CheckStats.body record] })
    ⟨"Start Time,End Time,Source Node,DropReason", []⟩

/-- The classification rule in the words of the specification: the drop
reason if there is one, else `success` if every subunit status is true, else
`PayloadDecodeError`. -/
def specLabel (record : WifiPpduRxRecord) : String :=
  match record.m_reason with
  | some reason => reason
  | none => if record.m_statusPerMpdu.all (fun status => status) then "success"
            else "PayloadDecodeError"

/-- The row the specification asks for: millisecond times, sender, label. -/
def specRow (record : WifiPpduRxRecord) : TimelineRow :=
  ⟨GetMilliSeconds record.m_startTime, GetMilliSeconds record.m_endTime,
    record.m_senderId, specLabel record⟩

/-! ## Per-cell metrics: `CalculateThroughputAndSuccess` -/

/-- One line printed by `CalculateThroughputAndSuccess`: the printed cell
number (`bss + 1`), the throughput in Mbps (`throughput / 1e6`) and the
success probability. -/
structure BssReport where
  bss : Int
  throughputMbps : ℚ
  successProbability : ℚ
deriving DecidableEq, Repr

/-- The local `successProbability` of the loop body:
`static_cast<double>(successes[bss]) / (successes[bss] + 1e-9)`. -/
def successProbability (successCount : Int) : ℚ :=
  (successCount : ℚ) / ((successCount : ℚ) + 1e-9)

/-- The local `throughput` of the loop body, in bits per second:
`static_cast<double>(successes[bss]) * payloadSize * 8 / simulationTime`. -/
def throughput (successCount payloadSize : Int) (simulationTime : ℚ) : ℚ :=
  (successCount : ℚ) * (payloadSize : ℚ) * 8 / simulationTime

/-- The loop `for (int bss = ...; bss < numBSS; ++bss)`, with `remaining`
iterations left.  Reading `successes[bss]` past the end of the vector is
undefined behaviour and yields `none`. -/
def CalculateThroughputAndSuccess.loop (successes : List Int) (payloadSize : Int)
    (simulationTime : ℚ) : (remaining : Nat) → (bss : Nat) → Option (List BssReport)
  | 0, _ => some []
  | remaining + 1, bss =>
    match successes[bss]? with
    | none => none
    | some s =>
      (CalculateThroughputAndSuccess.loop successes payloadSize simulationTime remaining
          (bss + 1)).map
        (fun rest =>
          ⟨(bss : Int) + 1, throughput s payloadSize simulationTime / 1e6,
            successProbability s⟩ :: rest)

/-- The function `CalculateThroughputAndSuccess`: the lines it prints, in
order, or `none` when it indexes `successes` out of range. -/
def CalculateThroughputAndSuccess (numBSS : Int) (successes : List Int) (payloadSize : Int)
    (simulationTime : ℚ) : Option (List BssReport) :=
  CalculateThroughputAndSuccess.loop successes payloadSize simulationTime numBSS.toNat 0

/-- The vector `successes` built in `main` (lines 433-437). -/
def main.successes : List Int := [100, 120, 110]

/-- The `payloadSize` of `main`. -/
def main.payloadSize : Int := 1500

/-- The `simulationTime` of `main`. -/
def main.simulationTime : ℚ := 10

/-- The only call of `CalculateThroughputAndSuccess`, made by `main` right
after command-line parsing: `numBSS` is `successes.size()`. -/
def main.metrics : Option (List BssReport) :=
  CalculateThroughputAndSuccess (main.successes.length : Int) main.successes main.payloadSize
    main.simulationTime

/-- A record is classified `success` when it has no drop reason and every
subunit status is true. -/
def classifiedSuccess (record : WifiPpduRxRecord) : Bool :=
  record.m_reason.isNone && record.m_statusPerMpdu.all (fun status => status)

/-- The per-cell success count in the words of the specification: the number
of records classified `success` whose sender belongs to the cell, where
`bssNode` maps a node identifier to its cell. -/
def specSuccessCount (records : List WifiPpduRxRecord) (bssNode : Nat → Option Nat)
    (cell : Nat) : Nat :=
  (records.filter (fun record =>
    classifiedSuccess record && decide (bssNode record.m_senderId = some cell))).length

/-! ## Identity resolver: `MacAddressToNodeId` -/

/-- A 48-bit link-layer address, as its numeric value. -/
abbrev Mac48Address := Nat

/-- Result of `MacAddressToNodeId`: a node identifier, the `NS_ABORT_MSG`, or
an out-of-range `apNodes.Get (i)`. -/
inductive Resolved where
  | nodeId (id : Nat)
  | abort
  | outOfRange
deriving DecidableEq, Repr

/-- The loop over `apDevices` of `MacAddressToNodeId`, at index `i` with the
devices from `i` on still to visit; `none` when the loop ends without
returning. -/
def MacAddressToNodeId.loop (address : Mac48Address) (apNodes : List Nat) :
    (devicesFromI : List Mac48Address) → (i : Nat) → Option Resolved
  | [], _ => none
  | deviceAddress :: rest, i =>
    if deviceAddress = address then
      match apNodes[i]? with
      | some id => some (Resolved.nodeId id)
      | none => some Resolved.outOfRange
    else MacAddressToNodeId.loop address apNodes rest (i + 1)

/-- The function `MacAddressToNodeId`.  `apDevices` lists the device
addresses by index, `apNodes` the node identifiers by index, and
`staMacAddressToNodeId` is the lookup of the station map. -/
def MacAddressToNodeId (apDevices : List Mac48Address) (apNodes : List Nat)
    (staMacAddressToNodeId : Mac48Address → Option Nat) (address : Mac48Address) : Resolved :=
  match MacAddressToNodeId.loop address apNodes apDevices 0 with
  | some r => r
  | none =>
    match staMacAddressToNodeId address with
    | some id => Resolved.nodeId id
    | none => Resolved.abort

/-- The loop of `main` that populates `m_staMacAddressToNodeId`: each station
device, given as (address, node identifier), is stored with `operator[]`, so
a later device with the same address overwrites an earlier one. -/
def main.populateStaMap (staDevices : List (Mac48Address × Nat)) :
    Mac48Address → Option Nat :=
  staDevices.foldl
    (fun m device => fun a => if a = device.1 then some device.2 else m a)
    (fun _ => none)

/-! ## Association controller: `CheckAssociation` and the event queue -/

/-- The command-line globals read by the association controller, with the
`duration` that fixes the stop time. -/
structure Config where
  ccaSensitivity : ℚ
  txPower : ℚ
  duration : ℚ
deriving DecidableEq, Repr

/-- The initial values of the globals: `ccaSensitivity = -82`,
`txPower = 50`, `duration = 1`. -/
def Config.defaults : Config := ⟨-82, 50, 1⟩

/-- The radio parameters written by `CheckAssociation`. -/
structure WifiPhy where
  ccaSensitivityThreshold : ℚ
  txPowerStart : ℚ
  txPowerEnd : ℚ
deriving DecidableEq, Repr

/-- A station node: its radio, the answer of `staMac->IsAssociated ()` and the
number of `ScanningTimeout (std::nullopt)` calls made on it so far. -/
structure StaNode where
  phy : WifiPhy
  isAssociated : Bool
  scanningTimeouts : Nat
deriving DecidableEq, Repr

/-- An access-point node: its identifier, the address of its device, its
radio and the `BeaconInterval` attribute of its MAC in microseconds. -/
structure ApNode where
  id : Nat
  address : Mac48Address
  phy : WifiPhy
  beaconInterval : Nat
deriving DecidableEq, Repr

/-- Lines printed on `std::cout` by the callbacks (the time printed by
`AssociatedSta` is left out). -/
inductive Printed where
  | restartedAssociation
  | associatedNSta (associatedStas : Nat)
  | nodeAssociated (id : Nat)
deriving DecidableEq, Repr

/-- The global state seen by the callbacks while the simulator runs: the two
counters, the node containers, the station address map, the simulator clock
`now` (seconds), the pending `CheckAssociation` events (their times, in
scheduling order), the printed lines, and whether `NS_ABORT_MSG` was hit. -/
structure World where
  associatedStas : Nat
  deassociatedStas : Nat
  staNodes : List StaNode
  apNodes : List ApNode
  m_staMacAddressToNodeId : Mac48Address → Option Nat
  now : ℚ
  events : List ℚ
  cout : List Printed
  aborted : Bool

/-- The interval `MicroSeconds (65535 * 1024)` set on the Stable branch, as
the `int` product of the source. -/
def stableBeaconInterval : Nat := 65535 * 1024

/-- The function `CheckAssociation`. -/
def CheckAssociation (cfg : Config) (w : World) : World :=
  if w.associatedStas < w.staNodes.length then
    { w with
      cout := w.cout ++ [Printed.restartedAssociation]
      staNodes := w.staNodes.map (fun sta =>
        { phy := ⟨-82, 35, 35⟩
          isAssociated := sta.isAssociated
          scanningTimeouts :=
            if !sta.isAssociated then sta.scanningTimeouts + 1 else sta.scanningTimeouts })
      apNodes := w.apNodes.map (fun ap => { ap with phy := ⟨-82, 35, 35⟩ })
      events := w.events ++ [w.now + 1] }
  else
    { w with
      cout := w.cout ++ [Printed.associatedNSta w.associatedStas]
      staNodes := w.staNodes.map (fun sta =>
        { sta with phy := ⟨cfg.ccaSensitivity, cfg.txPower, cfg.txPower⟩ })
      apNodes := w.apNodes.map (fun ap =>
        { ap with
          beaconInterval := stableBeaconInterval
          phy := ⟨cfg.ccaSensitivity, cfg.txPower, cfg.txPower⟩ }) }

/-- The callback `AssociatedSta`: increments the `uint32_t` counter, then
prints the node resolved from the address (aborting if it is unknown). -/
def AssociatedSta (w : World) (_aid : Nat) (addy : Mac48Address) : World :=
  let w1 := { w with associatedStas := (w.associatedStas + 1) % 2 ^ 32 }
  match MacAddressToNodeId (w.apNodes.map ApNode.address) (w.apNodes.map ApNode.id)
      w.m_staMacAddressToNodeId addy with
  | Resolved.nodeId id => { w1 with cout := w1.cout ++ [Printed.nodeAssociated id] }
  | _ => { w1 with aborted := true }

/-- The callback `DeAssociatedSta`: increments `deassociatedStas` only. -/
def DeAssociatedSta (w : World) (_aid : Nat) (_addr : Mac48Address) : World :=
  { w with deassociatedStas := (w.deassociatedStas + 1) % 2 ^ 32 }

/-- The time of `Simulator::Stop (Seconds ((10) + duration))`. -/
def stopTime (cfg : Config) : ℚ := 10 + cfg.duration

/-- The time of the first check, `Simulator::Schedule (Seconds (1.5), ...)`. -/
def firstCheckTime : ℚ := 3 / 2

/-- The time of the earliest pending event; among equal times the one
scheduled first. -/
def Simulator.earliest : List ℚ → Option ℚ
  | [] => none
  | t :: rest =>
    match Simulator.earliest rest with
    | none => some t
    | some u => if u < t then some u else some t

/-- The event the simulator would run next: the earliest pending check and
the queue without it, provided it is due before the stop time (an event at
or after the stop time never fires). -/
def Simulator.dispatch (cfg : Config) (w : World) : Option (ℚ × List ℚ) :=
  match Simulator.earliest w.events with
  | none => none
  | some t => if t < stopTime cfg then some (t, w.events.erase t) else none

/-- What can happen while the simulator runs: the collaborator fires the
association or deassociation trace of an access point, the collaborator
changes what `IsAssociated ()` answers for station `i`, or the simulator
dispatches the next pending `CheckAssociation`. -/
inductive Input where
  | associated (aid : Nat) (addy : Mac48Address)
  | deassociated (aid : Nat) (addr : Mac48Address)
  | staMacState (i : Nat) (isAssociated : Bool)
  | runNext
deriving DecidableEq, Repr

/-- One step of `Simulator::Run`.  After an abort nothing happens any more. -/
def Simulator.step (cfg : Config) (w : World) (input : Input) : World :=
  if w.aborted then w
  else
    match input with
    | Input.associated aid addy => AssociatedSta w aid addy
    | Input.deassociated aid addr => DeAssociatedSta w aid addr
    | Input.staMacState i b =>
      { w with staNodes := w.staNodes.modify (fun sta => { sta with isAssociated := b }) i }
    | Input.runNext =>
      match Simulator.dispatch cfg w with
      | none => w
      | some (t, rest) => CheckAssociation cfg { w with now := t, events := rest }

/-- The world after a sequence of inputs. -/
def Simulator.run (cfg : Config) (w : World) (inputs : List Input) : World :=
  inputs.foldl (Simulator.step cfg) w

/-- The world when `Simulator::Run` starts: both counters zero and the single
check scheduled by `main` at 1.5 s pending. -/
def main.initialWorld (staNodes : List StaNode) (apNodes : List ApNode)
    (staMap : Mac48Address → Option Nat) : World :=
  { associatedStas := 0
    deassociatedStas := 0
    staNodes := staNodes
    apNodes := apNodes
    m_staMacAddressToNodeId := staMap
    now := 0
    events := [firstCheckTime]
    cout := []
    aborted := false }

/-- The Stable branch has been taken: `associated N Sta:` was printed. -/
def enteredStable (w : World) : Prop :=
  ∃ n, Printed.associatedNSta n ∈ w.cout

/-- The invariant of the association controller for an experiment with `N`
stations: the station container keeps its size, at most one check is
pending, pending checks lie on the grid `1.5 + k` seconds, nothing is pending
once the Stable branch has been taken, and every printed
`associated N Sta: n` has `n ≥ N`. -/
structure ControllerInv (N : Nat) (w : World) : Prop where
  nsta : w.staNodes.length = N
  atMostOne : w.events.length ≤ 1
  onGrid : ∀ t ∈ w.events, ∃ k : Nat, t = firstCheckTime + (k : ℚ)
  stableIdle : enteredStable w → w.events = []
  stableCounter : ∀ n, Printed.associatedNSta n ∈ w.cout → N ≤ n

/-- A station as `main` leaves it: nominal default radio, not associated,
never asked to re-scan. -/
def exampleSta : StaNode := ⟨⟨-82, 50, 50⟩, false, 0⟩

/-- An access point as `main` leaves it: node 0, address 10, nominal default
radio, beacon interval `10 * 1024` microseconds. -/
def exampleAp : ApNode := ⟨0, 10, ⟨-82, 50, 50⟩, 10 * 1024⟩

/-- The start of a run with one access point and one station (node 1,
address 20). -/
def exampleWorld : World :=
  main.initialWorld [exampleSta] [exampleAp] (main.populateStaMap [(20, 1)])

/-! ## Topology: access-point grid and station placement

The placement code computes in `double`; it is embedded over an ordered
field `α` (the reals in the theorems), with the `<cmath>` functions it calls
passed in as a record. -/

/-- The struct `Point`. -/
structure Point (α : Type) where
  x : α
  y : α

/-- The functions and the constant of `<cmath>` used by the placement code. -/
structure CMath (α : Type) where
  sqrt : α → α
  cos : α → α
  sin : α → α
  M_PI : α

/-- The number of stations created by `staNodes.Create (apNodeCount *
networkSize)`: the product is taken in `uint32_t`.  `apNodeCount` is the
value of a non-negative `int`. -/
def main.stationCount (apNodeCount networkSize : Nat) : Nat :=
  (apNodeCount * networkSize) % 2 ^ 32

/-- Identifier of access point `i`: the access-point nodes are created
first, so they are numbered from 0. -/
def main.apNodeId (i : Nat) : Nat := i

/-- Identifier of station `i`: the station nodes are created right after
the `apNodeCount` access points. -/
def main.staNodeId (apNodeCount i : Nat) : Nat := apNodeCount + i

/-- The map `bssNode` after the two device loops of `main`: access point `i`
is stored with cell `i`, station `i` with cell `i % apNodeCount`. -/
def main.assignBssNode (apNodeCount networkSize : Nat) : Nat → Option Nat :=
  (List.range (main.stationCount apNodeCount networkSize)).foldl
    (fun bssNode i => fun id =>
      if id = main.staNodeId apNodeCount i then some (i % apNodeCount) else bssNode id)
    ((List.range apNodeCount).foldl
      (fun bssNode i => fun id => if id = main.apNodeId i then some i else bssNode id)
      (fun _ => none))

/-- Body of the access-point placement loop: the position of access point
`i`, with `distanceAps` the `uint8_t` spacing. -/
def main.apPosition {α : Type} [LinearOrderedField α] (distanceAps : Nat) (i : Nat) :
    Point α :=
  let x0 : α := (distanceAps : α) / 2
  let y0 : α := (distanceAps : α) / 2
  let x1 : α := if i = 1 then (distanceAps : α) / 2 + (distanceAps : α) else x0
  if i = 2 then ⟨(distanceAps : α) / 2, (distanceAps : α) / 2 + (distanceAps : α)⟩
  else if i = 3 then
    ⟨(distanceAps : α) / 2 + (distanceAps : α), (distanceAps : α) / 2 + (distanceAps : α)⟩
  else ⟨x1, y0⟩

/-- The vector `apPositions` after the placement loop over the access
points. -/
def main.apPositions {α : Type} [LinearOrderedField α] (distanceAps apNodeCount : Nat) :
    List (Point α) :=
  (List.range apNodeCount).map (main.apPosition distanceAps)

/-- Body of the `disc` loop for station `i` of `N`: `none` when
`apPositions[currentAp]` is out of range.  A key missing from `bssNode`
reads as 0, as `operator[]` does. -/
def main.discStation {α : Type} [LinearOrderedField α] (m : CMath α) (radius : α)
    (apPositions : List (Point α)) (bssNode : Nat → Option Nat) (apNodeCount N i : Nat) :
    Option (Point α) :=
  let currentAp := (bssNode (main.staNodeId apNodeCount i)).getD 0
  match apPositions[currentAp]? with
  | none => none
  | some apPos =>
    let angleIncrement : α := 2 * m.M_PI / (N : α)
    let currentAngle : α := (i : α) * angleIncrement
    some ⟨apPos.x + radius * m.cos currentAngle, apPos.y + radius * m.sin currentAngle⟩

/-- The station positions under `topology == "disc"`, in station order. -/
def main.discPlacement {α : Type} [LinearOrderedField α] (m : CMath α) (radius : α)
    (distanceAps apNodeCount networkSize : Nat) : List (Option (Point α)) :=
  (List.range (main.stationCount apNodeCount networkSize)).map
    (main.discStation m radius (main.apPositions distanceAps apNodeCount)
      (main.assignBssNode apNodeCount networkSize) apNodeCount
      (main.stationCount apNodeCount networkSize))

/-- The `while (randomRadius < 1)` loop of `generateRandomPointInCircle`:
`samples` is the stream of values returned by `randomAngle->GetValue (0.0,
1.0)`, `next` the index of the next unused sample, `fuel` the number of
re-draws allowed.  Returns the accepted radius and the next unused index. -/
def generateRandomPointInCircle.loop {α : Type} [LinearOrderedField α] (m : CMath α)
    (radius : α) (samples : Nat → α) : (fuel : Nat) → (randomRadius : α) → (next : Nat) →
    Option (α × Nat)
  | 0, randomRadius, next => if randomRadius < 1 then none else some (randomRadius, next)
  | fuel + 1, randomRadius, next =>
    if randomRadius < 1 then
      generateRandomPointInCircle.loop m radius samples fuel
        (m.sqrt (radius * radius * samples next)) (next + 1)
    else some (randomRadius, next)

/-- The function `generateRandomPointInCircle`, drawing from `samples`
starting at index 0: the point returned and the number of samples used, or
`none` when the loop is still running after `fuel` re-draws. -/
def generateRandomPointInCircle {α : Type} [LinearOrderedField α] (m : CMath α)
    (radius : α) (origin : Point α) (samples : Nat → α) (fuel : Nat) :
    Option (Point α × Nat) :=
  match generateRandomPointInCircle.loop m radius samples fuel
      (m.sqrt (radius * radius * samples 0)) 1 with
  | none => none
  | some (randomRadius, next) =>
    let randomAngleInRadians : α := 2 * m.M_PI * samples next
    some (⟨origin.x + randomRadius * m.cos randomAngleInRadians,
           origin.y + randomRadius * m.sin randomAngleInRadians⟩, next + 1)

/-- The candidate radius computed from sample `j`. -/
def candidateRadius {α : Type} [LinearOrderedField α] (m : CMath α) (radius : α)
    (samples : Nat → α) (j : Nat) : α :=
  m.sqrt (radius * radius * samples j)

/-! ## Workload generator -/

/-- The inner loop `for (uint32_t x = 0; x < staNodes.GetN (); x +=
apNodeCount)` for access point `i`, from `x` on: the station indices `x + i`
passed to `staDevices.Get`, in order (`uint32_t` arithmetic), or `none` when
the loop is still running after `fuel` iterations. -/
def main.workloadClients (apNodeCount N i : Nat) : (fuel : Nat) → (x : Nat) →
    Option (List Nat)
  | 0, _ => none
  | fuel + 1, x =>
    if x < N then
      (main.workloadClients apNodeCount N i fuel ((x + apNodeCount) % 2 ^ 32)).map
        (fun rest => (x + i) % 2 ^ 32 :: rest)
    else some []

/-- The outer loop over the access points under `appType == "constant"`:
for each access point `i`, in order, the one server added to it and the
station indices of the clients built for it. -/
def main.workload (apNodeCount N fuel : Nat) : List (Nat × Option (List Nat)) :=
  (List.range apNodeCount).map
    (fun i => (i, main.workloadClients apNodeCount N i fuel 0))

/-! ## Standard and frequency selection -/

/-- The values of `WifiStandard` assigned by `main`. -/
inductive WifiStandard where
  | WIFI_STANDARD_80211a
  | WIFI_STANDARD_80211b
  | WIFI_STANDARD_80211g
  | WIFI_STANDARD_80211n
  | WIFI_STANDARD_80211ac
  | WIFI_STANDARD_80211ax
deriving DecidableEq, Repr

/-- The two `NS_FATAL_ERROR` exits of the standard selection. -/
inductive FatalError where
  | unsupportedFrequencyBand
  | unsupportedStandard
deriving DecidableEq, Repr

/-- What the standard selection leaves behind: the local `wifiStandard` and
the globals `frequency` and `channelWidth`. -/
structure StandardSelection where
  wifiStandard : WifiStandard
  frequency : ℚ
  channelWidth : Nat
deriving DecidableEq, Repr

/-- The `if (standard == ...)` chain of `main`.  `frequency` is the value of
the `double` global, compared with the literals 2.4, 5 and 6. -/
def main.selectStandard (standard : String) (frequency : ℚ) (channelWidth : Nat) :
    Except FatalError StandardSelection :=
  if standard = "11a" then
    Except.ok ⟨WifiStandard.WIFI_STANDARD_80211a, 5, 20⟩
  else if standard = "11b" then
    Except.ok ⟨WifiStandard.WIFI_STANDARD_80211b, 12 / 5, 22⟩
  else if standard = "11g" then
    Except.ok ⟨WifiStandard.WIFI_STANDARD_80211g, 12 / 5, 20⟩
  else if standard = "11n" then
    if frequency = 12 / 5 then
      Except.ok ⟨WifiStandard.WIFI_STANDARD_80211n, frequency, channelWidth⟩
    else if frequency = 5 then
      Except.ok ⟨WifiStandard.WIFI_STANDARD_80211n, frequency, channelWidth⟩
    else Except.error FatalError.unsupportedFrequencyBand
  else if standard = "11ac" then
    Except.ok ⟨WifiStandard.WIFI_STANDARD_80211ac, 5, channelWidth⟩
  else if standard = "11ax" then
    if frequency = 12 / 5 then
      Except.ok ⟨WifiStandard.WIFI_STANDARD_80211ax, frequency, channelWidth⟩
    else if frequency = 5 then
      Except.ok ⟨WifiStandard.WIFI_STANDARD_80211ax, frequency, channelWidth⟩
    else if frequency = 6 then
      Except.ok ⟨WifiStandard.WIFI_STANDARD_80211ax, frequency, channelWidth⟩
    else Except.error FatalError.unsupportedFrequencyBand
  else Except.error FatalError.unsupportedStandard

/-- The selection aborts the run. -/
def isFatal (r : Except FatalError StandardSelection) : Prop :=
  ∃ e, r = Except.error e

/-- The local `currentAngle` of the `disc` loop for station `i` of `N`:
`i * angleIncrement` with `angleIncrement = 2 * M_PI / N`. -/
def main.discAngle {α : Type} [LinearOrderedField α] (m : CMath α) (N i : Nat) : α :=
  (i : α) * (2 * m.M_PI / (N : α))

/-- The start of a run with one access point and two stations: station A
(node 1, address 20) and station B (node 2, address 21). -/
def twoStationWorld : World :=
  main.initialWorld [exampleSta, exampleSta] [exampleAp]
    (main.populateStaMap [(20, 1), (21, 2)])

/-- Station A associates, deassociates and associates again, each time
with the state of its MAC changing accordingly, while station B never
associates; then the first check is dispatched. -/
def reassociationInputs : List Input :=
  [Input.staMacState 0 true, Input.associated 1 20,
   Input.staMacState 0 false, Input.deassociated 1 20,
   Input.staMacState 0 true, Input.associated 1 20,
   Input.runNext]

/-! ### Helper lemmas for the classifier -/

theorem allSuccessLoop_foldl_false (statusPerMpdu : List Bool) :
    statusPerMpdu.foldl (fun allSuccess status => if !status then false else allSuccess) false
      = false := by
  induction statusPerMpdu with
  | nil => rfl
  | cons s rest ih => cases s <;> simpa using ih

theorem allSuccessLoop_eq_all (statusPerMpdu : List Bool) :
    allSuccessLoop statusPerMpdu = statusPerMpdu.all (fun status => status) := by
  unfold allSuccessLoop
  induction statusPerMpdu with
  | nil => rfl
  | cons s rest ih =>
    cases s
    · simpa using allSuccessLoop_foldl_false rest
    · simpa using ih

theorem CheckStats_body_eq_specRow (record : WifiPpduRxRecord) :
    CheckStats.body record = specRow record := by
  unfold CheckStats.body specRow specLabel
  cases hr : record.m_reason with
  | some reason => rfl
  | none =>
    simp only [allSuccessLoop_eq_all]
    split <;> rfl

theorem CheckStats_foldl (records : List WifiPpduRxRecord) (acc : TxTimeline) :
    records.foldl
        (fun outFile record =>
          { outFile with rows := outFile.rows ++ [CheckStats.body record] }) acc
      = ⟨acc.header, acc.rows ++ records.map CheckStats.body⟩ := by
  induction records generalizing acc with
  | nil => simp
  | cons r rest ih => simp [ih]

theorem CheckStats_rows (records : List WifiPpduRxRecord) :
    (CheckStats records).rows = records.map specRow := by
  unfold CheckStats
  rw [CheckStats_foldl]
  simp [CheckStats_body_eq_specRow]

/-! ### Helper lemmas for the metrics -/

theorem CalculateThroughputAndSuccess_loop_eq (successes : List Int) (payloadSize : Int)
    (simulationTime : ℚ) (n bss : Nat) (h : bss + n ≤ successes.length) :
    CalculateThroughputAndSuccess.loop successes payloadSize simulationTime n bss
      = some ((List.range' bss n).map (fun (b : Nat) =>
          (⟨(b : Int) + 1, throughput (successes.getD b 0) payloadSize simulationTime / 1e6,
            successProbability (successes.getD b 0)⟩ : BssReport))) := by
  induction n generalizing bss with
  | zero => simp [CalculateThroughputAndSuccess.loop]
  | succ n ih =>
    have hb : bss < successes.length := by omega
    simp [CalculateThroughputAndSuccess.loop, List.getElem?_eq_getElem hb,
      ih (bss + 1) (by omega), List.range'_succ, List.getD_eq_getElem _ _ hb]

theorem CalculateThroughputAndSuccess_row (numBSS : Int) (successes : List Int)
    (payloadSize : Int) (simulationTime : ℚ) (b : Nat) (s : Int)
    (hlen : numBSS ≤ successes.length) (hb : (b : Int) < numBSS)
    (hs : successes[b]? = some s) :
    ∃ out, CalculateThroughputAndSuccess numBSS successes payloadSize simulationTime = some out
      ∧ out.length = numBSS.toNat
      ∧ out[b]? = some ⟨(b : Int) + 1, throughput s payloadSize simulationTime / 1e6,
          successProbability s⟩ := by
  have hn : 0 + numBSS.toNat ≤ successes.length := by omega
  have hbn : b < numBSS.toNat := by omega
  refine ⟨_, CalculateThroughputAndSuccess_loop_eq successes payloadSize simulationTime
    numBSS.toNat 0 hn, by simp, ?_⟩
  simp [List.getElem?_map, List.getElem?_range' , hbn, hs]

theorem successProbability_eq (s : Int) :
    successProbability s = (s : ℚ) / ((s : ℚ) + 1 / 10 ^ 9) := by
  unfold successProbability
  norm_num

/-! ### Helper lemmas for the identity resolver -/

theorem MacAddressToNodeId_loop_none_iff (address : Mac48Address) (apNodes : List Nat)
    (devices : List Mac48Address) (i : Nat) :
    MacAddressToNodeId.loop address apNodes devices i = none ↔ address ∉ devices := by
  induction devices generalizing i with
  | nil => simp [MacAddressToNodeId.loop]
  | cons d rest ih =>
    unfold MacAddressToNodeId.loop
    by_cases hd : d = address
    · simp only [hd, if_true]
      cases apNodes[i]? <;> simp
    · simp only [hd, if_false, ih]
      simp [List.mem_cons, Ne.symm hd]

theorem MacAddressToNodeId_loop_first (address : Mac48Address) (apNodes : List Nat)
    (devices : List Mac48Address) (i k : Nat) (hk : devices[k]? = some address)
    (hmin : ∀ j, j < k → devices[j]? ≠ some address) :
    MacAddressToNodeId.loop address apNodes devices i
      = some (match apNodes[i + k]? with
              | some id => Resolved.nodeId id
              | none => Resolved.outOfRange) := by
  induction devices generalizing i k with
  | nil => simp at hk
  | cons d rest ih =>
    unfold MacAddressToNodeId.loop
    cases k with
    | zero =>
      simp at hk
      simp only [hk, if_true, Nat.add_zero]
      cases apNodes[i]? <;> rfl
    | succ k =>
      have hd : d ≠ address := by
        have := hmin 0 (Nat.succ_pos k)
        simpa using this
      simp only [hd, if_false]
      have hk2 : rest[k]? = some address := by simpa using hk
      have hmin2 : ∀ j, j < k → rest[j]? ≠ some address := by
        intro j hj
        have := hmin (j + 1) (by omega)
        simpa using this
      rw [ih (i + 1) k hk2 hmin2]
      have : i + 1 + k = i + (k + 1) := by omega
      rw [this]

/-! ### Helper lemmas for the association controller -/

theorem CheckAssociation_converging (cfg : Config) (w : World)
    (h : w.associatedStas < w.staNodes.length) :
    CheckAssociation cfg w =
      { w with
        cout := w.cout ++ [Printed.restartedAssociation]
        staNodes := w.staNodes.map (fun sta =>
          { phy := ⟨-82, 35, 35⟩
            isAssociated := sta.isAssociated
            scanningTimeouts :=
              if !sta.isAssociated then sta.scanningTimeouts + 1 else sta.scanningTimeouts })
        apNodes := w.apNodes.map (fun ap => { ap with phy := ⟨-82, 35, 35⟩ })
        events := w.events ++ [w.now + 1] } := by
  unfold CheckAssociation
  rw [if_pos h]

theorem CheckAssociation_stable (cfg : Config) (w : World)
    (h : w.staNodes.length ≤ w.associatedStas) :
    CheckAssociation cfg w =
      { w with
        cout := w.cout ++ [Printed.associatedNSta w.associatedStas]
        staNodes := w.staNodes.map (fun sta =>
          { sta with phy := ⟨cfg.ccaSensitivity, cfg.txPower, cfg.txPower⟩ })
        apNodes := w.apNodes.map (fun ap =>
          { ap with
            beaconInterval := stableBeaconInterval
            phy := ⟨cfg.ccaSensitivity, cfg.txPower, cfg.txPower⟩ }) } := by
  unfold CheckAssociation
  rw [if_neg (Nat.not_lt.mpr h)]

theorem dispatch_of_atMostOne (cfg : Config) (w : World) (h : w.events.length ≤ 1) :
    Simulator.dispatch cfg w = none
      ∨ ∃ t, w.events = [t] ∧ t < stopTime cfg ∧ Simulator.dispatch cfg w = some (t, []) := by
  unfold Simulator.dispatch
  match hev : w.events, h with
  | [], _ => left; simp [Simulator.earliest]
  | [t], _ =>
    by_cases ht : t < stopTime cfg
    · right
      exact ⟨t, rfl, ht, by simp [Simulator.earliest, ht]⟩
    · left
      simp [Simulator.earliest, ht]
  | _ :: _ :: _, h => simp at h

theorem dispatch_nil (cfg : Config) (w : World) (h : w.events = []) :
    Simulator.dispatch cfg w = none := by
  unfold Simulator.dispatch
  rw [h]
  rfl

theorem ControllerInv_initial (staNodes : List StaNode) (apNodes : List ApNode)
    (staMap : Mac48Address → Option Nat) :
    ControllerInv staNodes.length (main.initialWorld staNodes apNodes staMap) where
  nsta := rfl
  atMostOne := by simp [main.initialWorld]
  onGrid := by
    intro t ht
    refine ⟨0, ?_⟩
    simp [main.initialWorld] at ht
    simp [ht]
  stableIdle := by
    rintro ⟨n, hn⟩
    simp [main.initialWorld] at hn
  stableCounter := by
    intro n hn
    simp [main.initialWorld] at hn

theorem ControllerInv_check (cfg : Config) (N : Nat) (w : World) (t : ℚ)
    (hinv : ControllerInv N w) (hev : w.events = [t]) :
    ControllerInv N (CheckAssociation cfg { w with now := t, events := [] }) := by
  have hnot : ¬ enteredStable w := by
    intro hs
    have := hinv.stableIdle hs
    rw [hev] at this
    cases this
  obtain ⟨k, hk⟩ := hinv.onGrid t (by rw [hev]; exact List.mem_singleton.mpr rfl)
  by_cases hc : w.associatedStas < w.staNodes.length
  · rw [CheckAssociation_converging cfg { w with now := t, events := [] } hc]
    refine ⟨by simpa using hinv.nsta, by simp, ?_, ?_, ?_⟩
    · intro u hu
      refine ⟨k + 1, ?_⟩
      simp at hu
      rw [hu, hk]
      push_cast
      ring
    · rintro ⟨n, hn⟩
      exfalso
      apply hnot
      refine ⟨n, ?_⟩
      simpa using hn
    · intro n hn
      apply hinv.stableCounter n
      simpa using hn
  · have hge : w.staNodes.length ≤ w.associatedStas := Nat.le_of_not_lt hc
    rw [CheckAssociation_stable cfg { w with now := t, events := [] } hge]
    refine ⟨by simpa using hinv.nsta, by simp, by simp, by simp, ?_⟩
    intro n hn
    simp at hn
    rcases hn with hn | hn
    · exact hinv.stableCounter n hn
    · rw [hn, ← hinv.nsta]
      exact hge

theorem ControllerInv_step (cfg : Config) (N : Nat) (w : World) (input : Input)
    (hinv : ControllerInv N w) : ControllerInv N (Simulator.step cfg w input) := by
  unfold Simulator.step
  by_cases hab : w.aborted = true
  · rw [if_pos hab]; exact hinv
  · rw [if_neg hab]
    cases input with
    | associated aid addy =>
      simp only [AssociatedSta]
      split
      · refine ⟨hinv.nsta, hinv.atMostOne, hinv.onGrid, ?_, ?_⟩
        · rintro ⟨n, hn⟩
          apply hinv.stableIdle
          refine ⟨n, ?_⟩
          simpa using hn
        · intro n hn
          apply hinv.stableCounter n
          simpa using hn
      · exact ⟨hinv.nsta, hinv.atMostOne, hinv.onGrid, hinv.stableIdle, hinv.stableCounter⟩
    | deassociated aid addr =>
      exact ⟨hinv.nsta, hinv.atMostOne, hinv.onGrid, hinv.stableIdle, hinv.stableCounter⟩
    | staMacState i b =>
      exact ⟨by simpa using hinv.nsta, hinv.atMostOne, hinv.onGrid, hinv.stableIdle,
        hinv.stableCounter⟩
    | runNext =>
      rcases dispatch_of_atMostOne cfg w hinv.atMostOne with hd | ⟨t, hev, _, hd⟩
      · simp only [hd]; exact hinv
      · simp only [hd]
        exact ControllerInv_check cfg N w t hinv hev

theorem ControllerInv_run (cfg : Config) (N : Nat) (inputs : List Input) (w : World)
    (hinv : ControllerInv N w) : ControllerInv N (Simulator.run cfg w inputs) := by
  induction inputs generalizing w with
  | nil => exact hinv
  | cons input rest ih => exact ih _ (ControllerInv_step cfg N w input hinv)

theorem ControllerInv_reachable (cfg : Config) (staNodes : List StaNode)
    (apNodes : List ApNode) (staMap : Mac48Address → Option Nat) (inputs : List Input) :
    ControllerInv staNodes.length
      (Simulator.run cfg (main.initialWorld staNodes apNodes staMap) inputs) :=
  ControllerInv_run cfg _ inputs _ (ControllerInv_initial staNodes apNodes staMap)

theorem run_append (cfg : Config) (w : World) (xs ys : List Input) :
    Simulator.run cfg w (xs ++ ys) = Simulator.run cfg (Simulator.run cfg w xs) ys := by
  simp [Simulator.run, List.foldl_append]

theorem cout_prefix_step (cfg : Config) (w : World) (input : Input) :
    ∃ more, (Simulator.step cfg w input).cout = w.cout ++ more := by
  unfold Simulator.step
  by_cases hab : w.aborted = true
  · rw [if_pos hab]; exact ⟨[], by simp⟩
  · rw [if_neg hab]
    cases input with
    | associated aid addy =>
      simp only [AssociatedSta]
      split
      · exact ⟨_, rfl⟩
      · exact ⟨[], by simp⟩
    | deassociated aid addr => exact ⟨[], by simp [DeAssociatedSta]⟩
    | staMacState i b => exact ⟨[], by simp⟩
    | runNext =>
      cases hd : Simulator.dispatch cfg w with
      | none => exact ⟨[], by simp⟩
      | some p =>
        obtain ⟨t, rest⟩ := p
        simp only []
        unfold CheckAssociation
        split
        · exact ⟨_, rfl⟩
        · exact ⟨_, rfl⟩

theorem enteredStable_step (cfg : Config) (w : World) (input : Input)
    (h : enteredStable w) : enteredStable (Simulator.step cfg w input) := by
  obtain ⟨n, hn⟩ := h
  obtain ⟨more, hmore⟩ := cout_prefix_step cfg w input
  exact ⟨n, by rw [hmore]; exact List.mem_append_left _ hn⟩

theorem enteredStable_run (cfg : Config) (inputs : List Input) (w : World)
    (h : enteredStable w) : enteredStable (Simulator.run cfg w inputs) := by
  induction inputs generalizing w with
  | nil => exact h
  | cons input rest ih => exact ih _ (enteredStable_step cfg w input h)

theorem converging_runs (cfg : Config) (n : Nat) :
    ∀ (w : World) (j : Nat), w.aborted = false → w.associatedStas < w.staNodes.length →
      w.events = [firstCheckTime + (j : ℚ)] →
      firstCheckTime + ((j + n : Nat) : ℚ) ≤ stopTime cfg →
      (Simulator.run cfg w (List.replicate n Input.runNext)).events
          = [firstCheckTime + ((j + n : Nat) : ℚ)]
        ∧ (Simulator.run cfg w (List.replicate n Input.runNext)).cout
          = w.cout ++ List.replicate n Printed.restartedAssociation := by
  induction n with
  | zero =>
    intro w j _ _ hev _
    simp [Simulator.run, hev]
  | succ n ih =>
    intro w j hab hc hev hstop
    have hlt : firstCheckTime + (j : ℚ) < stopTime cfg := by
      have : ((j + (n + 1) : Nat) : ℚ) = (j : ℚ) + (n : ℚ) + 1 := by push_cast; ring
      rw [this] at hstop
      have hn : (0 : ℚ) ≤ (n : ℚ) := Nat.cast_nonneg n
      linarith
    have hd : Simulator.dispatch cfg w = some (firstCheckTime + (j : ℚ), []) := by
      simp [Simulator.dispatch, hev, Simulator.earliest, hlt]
    have hstep : Simulator.step cfg w Input.runNext
        = CheckAssociation cfg { w with now := firstCheckTime + (j : ℚ), events := [] } := by
      simp [Simulator.step, hab, hd]
    have hconv := CheckAssociation_converging cfg
      { w with now := firstCheckTime + (j : ℚ), events := [] } hc
    have hrun : Simulator.run cfg w (List.replicate (n + 1) Input.runNext)
        = Simulator.run cfg (Simulator.step cfg w Input.runNext)
            (List.replicate n Input.runNext) := by
      simp [Simulator.run, List.replicate_succ]
    rw [hrun, hstep, hconv]
    have hnext := ih
      { w with
        cout := w.cout ++ [Printed.restartedAssociation]
        staNodes := w.staNodes.map (fun sta =>
          { phy := ⟨-82, 35, 35⟩
            isAssociated := sta.isAssociated
            scanningTimeouts :=
              if !sta.isAssociated then sta.scanningTimeouts + 1 else sta.scanningTimeouts })
        apNodes := w.apNodes.map (fun ap => { ap with phy := ⟨-82, 35, 35⟩ })
        now := firstCheckTime + (j : ℚ)
        events := [firstCheckTime + ((j + 1 : Nat) : ℚ)] }
      (j + 1) hab (by simpa using hc) rfl
      (by rw [show j + 1 + n = j + (n + 1) by omega]; exact hstop)
    have hev1 : ([] : List ℚ) ++ [firstCheckTime + (j : ℚ) + 1]
        = [firstCheckTime + ((j + 1 : Nat) : ℚ)] := by
      simp only [List.nil_append]
      congr 1
      push_cast
      ring
    simp only [hev1]
    obtain ⟨h1, h2⟩ := hnext
    refine ⟨?_, ?_⟩
    · rw [h1, show j + 1 + n = j + (n + 1) by omega]
    · rw [h2]
      simp [List.replicate_succ]

/-! ### Helper lemmas for the topology -/

theorem foldl_assign_lookup (key value : Nat → Nat) (hkey : Function.Injective key)
    (m0 : Nat → Option Nat) (N i : Nat) (hi : i < N) :
    ((List.range N).foldl
        (fun bssNode j => fun id => if id = key j then some (value j) else bssNode id) m0)
      (key i) = some (value i) := by
  induction N with
  | zero => omega
  | succ N ih =>
    rw [List.range_succ, List.foldl_append]
    simp only [List.foldl_cons, List.foldl_nil]
    by_cases h : key i = key N
    · rw [if_pos h, hkey h]
    · rw [if_neg h]
      apply ih
      have : i ≠ N := fun hiN => h (by rw [hiN])
      omega

theorem assignBssNode_sta (apNodeCount networkSize i : Nat)
    (hi : i < main.stationCount apNodeCount networkSize) :
    main.assignBssNode apNodeCount networkSize (main.staNodeId apNodeCount i)
      = some (i % apNodeCount) := by
  unfold main.assignBssNode
  exact foldl_assign_lookup (main.staNodeId apNodeCount) (fun j => j % apNodeCount)
    (fun a b hab => by unfold main.staNodeId at hab; omega) _ _ i hi

theorem stationCount_of_lt (apNodeCount networkSize : Nat)
    (h : apNodeCount * networkSize < 2 ^ 32) :
    main.stationCount apNodeCount networkSize = apNodeCount * networkSize := by
  unfold main.stationCount
  exact Nat.mod_eq_of_lt h

theorem apPositions_getElem? {α : Type} [LinearOrderedField α] (distanceAps apNodeCount c : Nat)
    (hc : c < apNodeCount) :
    (main.apPositions distanceAps apNodeCount : List (Point α))[c]?
      = some (main.apPosition distanceAps c) := by
  unfold main.apPositions
  simp [List.getElem?_map, List.getElem?_range, hc]

theorem discPlacement_getElem? {α : Type} [LinearOrderedField α] (m : CMath α) (radius : α)
    (distanceAps apNodeCount networkSize i : Nat) (hA : 1 ≤ apNodeCount)
    (hi : i < main.stationCount apNodeCount networkSize) :
    (main.discPlacement m radius distanceAps apNodeCount networkSize)[i]?
      = some (some
          ⟨(main.apPosition distanceAps (i % apNodeCount) : Point α).x
              + radius * m.cos ((i : α)
                  * (2 * m.M_PI / (main.stationCount apNodeCount networkSize : α))),
           (main.apPosition distanceAps (i % apNodeCount) : Point α).y
              + radius * m.sin ((i : α)
                  * (2 * m.M_PI / (main.stationCount apNodeCount networkSize : α)))⟩) := by
  have hc : i % apNodeCount < apNodeCount := Nat.mod_lt _ (by omega)
  unfold main.discPlacement
  rw [List.getElem?_map, List.getElem?_range hi]
  simp only [Option.map_some', main.discStation, assignBssNode_sta _ _ _ hi, Option.getD_some,
    apPositions_getElem? distanceAps apNodeCount _ hc]

/-! ### Helper lemmas for `generateRandomPointInCircle` -/

theorem generateRandomPointInCircle_loop_exit {α : Type} [LinearOrderedField α] (m : CMath α)
    (radius : α) (samples : Nat → α) (k : Nat) :
    ∀ (fuel idx : Nat), k ≤ fuel →
      (∀ j, j < k → candidateRadius m radius samples (idx + j) < 1) →
      ¬ candidateRadius m radius samples (idx + k) < 1 →
      generateRandomPointInCircle.loop m radius samples fuel
          (candidateRadius m radius samples idx) (idx + 1)
        = some (candidateRadius m radius samples (idx + k), idx + k + 1) := by
  induction k with
  | zero =>
    intro fuel idx _ _ hexit
    rw [Nat.add_zero] at hexit
    cases fuel <;> simp [generateRandomPointInCircle.loop, hexit]
  | succ k ih =>
    intro fuel idx hfuel hlow hexit
    obtain ⟨fuel, rfl⟩ : ∃ f, fuel = f + 1 := ⟨fuel - 1, by omega⟩
    have h0 : candidateRadius m radius samples idx < 1 := by simpa using hlow 0 (by omega)
    have hrec := ih fuel (idx + 1) (by omega)
      (fun j hj => by
        have := hlow (j + 1) (by omega)
        rwa [show idx + (j + 1) = idx + 1 + j by omega] at this)
      (by rwa [show idx + (k + 1) = idx + 1 + k by omega] at hexit)
    rw [generateRandomPointInCircle.loop, if_pos h0]
    rw [show idx + (k + 1) = idx + 1 + k by omega]
    exact hrec

theorem generateRandomPointInCircle_loop_none {α : Type} [LinearOrderedField α] (m : CMath α)
    (radius : α) (samples : Nat → α) (fuel : Nat) :
    ∀ idx : Nat, (∀ j, j ≤ fuel → candidateRadius m radius samples (idx + j) < 1) →
      generateRandomPointInCircle.loop m radius samples fuel
          (candidateRadius m radius samples idx) (idx + 1) = none := by
  induction fuel with
  | zero =>
    intro idx hlow
    have h0 : candidateRadius m radius samples idx < 1 := by simpa using hlow 0 (le_refl 0)
    simp [generateRandomPointInCircle.loop, h0]
  | succ fuel ih =>
    intro idx hlow
    have h0 : candidateRadius m radius samples idx < 1 := by simpa using hlow 0 (by omega)
    rw [generateRandomPointInCircle.loop, if_pos h0]
    exact ih (idx + 1) (fun j hj => by
      have := hlow (j + 1) (by omega)
      rwa [show idx + (j + 1) = idx + 1 + j by omega] at this)

theorem generateRandomPointInCircle_loop_some {α : Type} [LinearOrderedField α] (m : CMath α)
    (radius : α) (samples : Nat → α) (fuel : Nat) (r : α) (next : Nat)
    (h : generateRandomPointInCircle.loop m radius samples fuel
          (candidateRadius m radius samples 0) 1 = some (r, next)) :
    ∃ k, k ≤ fuel ∧ (∀ j, j < k → candidateRadius m radius samples j < 1)
      ∧ ¬ candidateRadius m radius samples k < 1
      ∧ r = candidateRadius m radius samples k ∧ next = k + 1 := by
  classical
  have hex : ∃ k, k ≤ fuel ∧ ¬ candidateRadius m radius samples k < 1 := by
    by_contra hno
    have hall : ∀ j, j ≤ fuel → candidateRadius m radius samples (0 + j) < 1 := by
      intro j hj
      by_contra hj1
      exact hno ⟨j, hj, by simpa using hj1⟩
    have := generateRandomPointInCircle_loop_none m radius samples fuel 0 hall
    rw [Nat.zero_add] at this
    rw [this] at h
    cases h
  have hk := Nat.find_spec hex
  have hmin : ∀ j, j < Nat.find hex → candidateRadius m radius samples (0 + j) < 1 := by
    intro j hj
    by_contra hj1
    exact Nat.find_min hex hj ⟨by omega, by simpa using hj1⟩
  have hloop := generateRandomPointInCircle_loop_exit m radius samples (Nat.find hex) fuel 0
    hk.1 hmin (by simpa using hk.2)
  simp only [Nat.zero_add] at hloop
  rw [hloop] at h
  simp only [Option.some.injEq, Prod.mk.injEq] at h
  exact ⟨Nat.find hex, hk.1, fun j hj => by simpa using hmin j hj, hk.2, h.1.symm, h.2.symm⟩

theorem candidateRadius_real_lt_one (radius : ℝ) (samples : Nat → ℝ) (j : Nat) :
    candidateRadius (⟨Real.sqrt, Real.cos, Real.sin, Real.pi⟩ : CMath ℝ) radius samples j < 1
      ↔ radius ^ 2 * samples j < 1 := by
  unfold candidateRadius
  rw [Real.sqrt_lt' one_pos]
  simp [sq]

theorem candidateRadius_real_eq (radius : ℝ) (samples : Nat → ℝ) (j : Nat) :
    candidateRadius (⟨Real.sqrt, Real.cos, Real.sin, Real.pi⟩ : CMath ℝ) radius samples j
      = Real.sqrt (radius ^ 2 * samples j) := by
  unfold candidateRadius
  simp [sq]

theorem generateRandomPointInCircle_real_iff (radius : ℝ) (origin : Point ℝ)
    (samples : Nat → ℝ) (fuel : Nat) (p : Point ℝ) (used : Nat) :
    generateRandomPointInCircle (⟨Real.sqrt, Real.cos, Real.sin, Real.pi⟩ : CMath ℝ) radius
        origin samples fuel = some (p, used)
      ↔ ∃ k, k ≤ fuel ∧ (∀ j, j < k → radius ^ 2 * samples j < 1)
          ∧ 1 ≤ radius ^ 2 * samples k ∧ used = k + 2
          ∧ p = ⟨origin.x + Real.sqrt (radius ^ 2 * samples k)
                    * Real.cos (2 * Real.pi * samples (k + 1)),
                 origin.y + Real.sqrt (radius ^ 2 * samples k)
                    * Real.sin (2 * Real.pi * samples (k + 1))⟩ := by
  have hcand0 : Real.sqrt (radius * radius * samples 0)
      = candidateRadius (⟨Real.sqrt, Real.cos, Real.sin, Real.pi⟩ : CMath ℝ) radius samples 0 :=
    rfl
  constructor
  · intro h
    unfold generateRandomPointInCircle at h
    simp only [hcand0] at h
    cases hl : generateRandomPointInCircle.loop
        (⟨Real.sqrt, Real.cos, Real.sin, Real.pi⟩ : CMath ℝ) radius samples fuel
        (candidateRadius (⟨Real.sqrt, Real.cos, Real.sin, Real.pi⟩ : CMath ℝ) radius samples 0)
        1 with
    | none => rw [hl] at h; cases h
    | some res =>
      obtain ⟨r, next⟩ := res
      rw [hl] at h
      obtain ⟨k, hk, hlow, hexit, hr, hnext⟩ :=
        generateRandomPointInCircle_loop_some _ radius samples fuel r next hl
      simp only [Option.some.injEq, Prod.mk.injEq] at h
      refine ⟨k, hk, fun j hj => (candidateRadius_real_lt_one radius samples j).mp (hlow j hj),
        ?_, ?_, ?_⟩
      · rw [candidateRadius_real_lt_one] at hexit
        exact not_lt.mp hexit
      · rw [← h.2, hnext]
      · rw [← h.1, hr, hnext, candidateRadius_real_eq]
  · rintro ⟨k, hk, hlow, hexit, hused, hp⟩
    have hloop := generateRandomPointInCircle_loop_exit
      (⟨Real.sqrt, Real.cos, Real.sin, Real.pi⟩ : CMath ℝ) radius samples k fuel 0 hk
      (fun j hj => by
        rw [Nat.zero_add]
        exact (candidateRadius_real_lt_one radius samples j).mpr (hlow j hj))
      (by
        rw [Nat.zero_add, candidateRadius_real_lt_one]
        exact not_lt.mpr hexit)
    simp only [Nat.zero_add] at hloop
    unfold generateRandomPointInCircle
    simp only [hcand0, hloop]
    rw [hp, hused, candidateRadius_real_eq]

/-! ### Helper lemmas for the workload generator -/

theorem workloadClients_eq (A n i : Nat) (hA : 1 ≤ A) (hbound : A * n < 2 ^ 32)
    (hi : i < A) (fuel : Nat) :
    ∀ k : Nat, k ≤ n → n - k + 1 ≤ fuel →
      main.workloadClients A (A * n) i fuel (k * A)
        = some ((List.range' k (n - k)).map (fun q => q * A + i)) := by
  induction fuel with
  | zero => intro k _ hfuel; omega
  | succ fuel ih =>
    intro k hk hfuel
    have hcomm : A * n = n * A := Nat.mul_comm A n
    rw [main.workloadClients]
    by_cases hlt : k < n
    · have hle : (k + 1) * A ≤ n * A := Nat.mul_le_mul_right A (by omega)
      have hsucc : (k + 1) * A = k * A + A := by ring
      have hx : k * A < A * n := by omega
      have hnext : (k * A + A) % 2 ^ 32 = (k + 1) * A := by
        rw [← hsucc]
        exact Nat.mod_eq_of_lt (by omega)
      have hidx : (k * A + i) % 2 ^ 32 = k * A + i := Nat.mod_eq_of_lt (by omega)
      rw [if_pos hx, hnext, hidx, ih (k + 1) (by omega) (by omega)]
      have hlen : n - k = (n - (k + 1)) + 1 := by omega
      rw [hlen, List.range'_succ]
      simp
    · have hkn : k = n := by omega
      have hx : ¬ k * A < A * n := by
        rw [hkn, hcomm]
        exact Nat.lt_irrefl _
      rw [if_neg hx, hkn]
      simp

theorem workload_eq (A n : Nat) (hA : 1 ≤ A) (hbound : A * n < 2 ^ 32) (fuel : Nat)
    (hfuel : n + 1 ≤ fuel) :
    main.workload A (A * n) fuel
      = (List.range A).map
          (fun i => (i, some ((List.range n).map (fun k => k * A + i)))) := by
  unfold main.workload
  apply List.map_congr_left
  intro i hi
  have hiA : i < A := List.mem_range.mp hi
  have h := workloadClients_eq A n i hA hbound hiA fuel 0 (Nat.zero_le n) (by omega)
  rw [Nat.zero_mul, Nat.sub_zero] at h
  rw [h, List.range_eq_range']

theorem mem_cellClients_iff (A n i j : Nat) (hi : i < A) (hj : j < A * n) :
    j ∈ (List.range n).map (fun k => k * A + i) ↔ j % A = i := by
  simp only [List.mem_map, List.mem_range]
  constructor
  · rintro ⟨k, _, rfl⟩
    rw [Nat.add_comm, Nat.add_mul_mod_self_right]
    exact Nat.mod_eq_of_lt hi
  · intro hmod
    refine ⟨j / A, Nat.div_lt_of_lt_mul hj, ?_⟩
    rw [← hmod, Nat.mul_comm]
    exact Nat.div_add_mod j A

theorem cellClients_nodup (A n i : Nat) (hA : 1 ≤ A) :
    ((List.range n).map (fun k => k * A + i)).Nodup := by
  apply List.Nodup.map _ (List.nodup_range n)
  intro a b hab
  have h : a * A = b * A := by
    simp only at hab
    omega
  exact Nat.eq_of_mul_eq_mul_right (by omega) h

/-! ### Helper lemmas for the association counter -/

theorem AssociatedSta_associatedStas (w : World) (aid : Nat) (addy : Mac48Address) :
    (AssociatedSta w aid addy).associatedStas = (w.associatedStas + 1) % 2 ^ 32 := by
  unfold AssociatedSta
  simp only []
  split <;> rfl

theorem run_replicate_succ (cfg : Config) (w : World) (input : Input) (k : Nat) :
    Simulator.run cfg w (List.replicate (k + 1) input)
      = Simulator.step cfg (Simulator.run cfg w (List.replicate k input)) input := by
  rw [List.replicate_succ', run_append]
  simp [Simulator.run]

theorem run_associated_replicate (cfg : Config) (aid : Nat) (addy : Mac48Address) (id : Nat)
    (k : Nat) :
    ∀ w : World, w.aborted = false → w.associatedStas < 2 ^ 32 →
      MacAddressToNodeId (w.apNodes.map ApNode.address) (w.apNodes.map ApNode.id)
        w.m_staMacAddressToNodeId addy = Resolved.nodeId id →
      (Simulator.run cfg w (List.replicate k (Input.associated aid addy))).associatedStas
        = (w.associatedStas + k) % 2 ^ 32 := by
  induction k with
  | zero =>
    intro w _ hlt _
    show w.associatedStas = (w.associatedStas + 0) % 2 ^ 32
    rw [Nat.add_zero, Nat.mod_eq_of_lt hlt]
  | succ k ih =>
    intro w hab hlt hres
    have hstep : Simulator.step cfg w (Input.associated aid addy)
        = { w with
            associatedStas := (w.associatedStas + 1) % 2 ^ 32
            cout := w.cout ++ [Printed.nodeAssociated id] } := by
      simp [Simulator.step, hab, AssociatedSta, hres]
    have hrun : Simulator.run cfg w (List.replicate (k + 1) (Input.associated aid addy))
        = Simulator.run cfg (Simulator.step cfg w (Input.associated aid addy))
            (List.replicate k (Input.associated aid addy)) := by
      simp [Simulator.run, List.replicate_succ]
    have hnext := ih
      { w with
        associatedStas := (w.associatedStas + 1) % 2 ^ 32
        cout := w.cout ++ [Printed.nodeAssociated id] }
      hab (Nat.mod_lt _ (by norm_num)) hres
    rw [hrun, hstep, hnext]
    simp only [Nat.mod_add_mod]
    congr 1
    omega

/-! ## Claims -/

/-- C1: `CheckStats` writes the header and then exactly one row per record, in
record order; row `i` carries the millisecond times and sender of record `i`
and the label given by the rule (drop reason, else `success` when every
subunit status is true, else `PayloadDecodeError`).  The stream
`[reason CcaBusy, [true,true], [true,false]]` yields the labels
`CcaBusy, success, PayloadDecodeError`. -/
theorem C1_CheckStats_classification (records : List WifiPpduRxRecord) :
    (CheckStats records).header = "Start Time,End Time,Source Node,DropReason"
    ∧ (CheckStats records).rows.length = records.length
    ∧ (CheckStats records).rows = records.map specRow
    ∧ (∀ i : Nat, ∀ h : i < records.length,
        (CheckStats records).rows[i]? = some (specRow records[i]))
    ∧ (∀ record : WifiPpduRxRecord, record.m_reason = none →
        record.m_statusPerMpdu = [] → (specRow record).dropReason = "success")
    ∧ (∀ (s1 e1 s2 e2 s3 e3 : Int) (n1 n2 n3 : Nat) (v : List Bool),
        (CheckStats [⟨s1, e1, n1, some "CcaBusy", v⟩, ⟨s2, e2, n2, none, [true, true]⟩,
            ⟨s3, e3, n3, none, [true, false]⟩]).rows.map TimelineRow.dropReason
          = ["CcaBusy", "success", "PayloadDecodeError"]) := by
  refine ⟨?_, ?_, CheckStats_rows records, ?_, ?_, ?_⟩
  · unfold CheckStats
    rw [CheckStats_foldl]
  · rw [CheckStats_rows, List.length_map]
  · intro i h
    rw [CheckStats_rows]
    simp [h]
  · intro record hr hs
    simp [specRow, specLabel, hr, hs]
  · intro s1 e1 s2 e2 s3 e3 n1 n2 n3 v
    rw [CheckStats_rows]
    simp [specRow, specLabel]

/-- C2: the metrics printed by `main` come from the fixed vector
`successes = [100, 120, 110]` (three cells, 0.12 / 0.144 / 0.132 Mbps), not
from the delivery records: for a run without any delivery record the count
asked for by the specification is 0 for every cell, while the code uses 100
for the first cell. -/
theorem C2_metrics_use_fixed_successes :
    main.successes = [100, 120, 110]
    ∧ main.metrics = some
        [⟨1, 3 / 25, 100000000000 / 100000000001⟩,
         ⟨2, 18 / 125, 120000000000 / 120000000001⟩,
         ⟨3, 33 / 250, 110000000000 / 110000000001⟩]
    ∧ (∀ (bssNode : Nat → Option Nat) (cell : Nat), specSuccessCount [] bssNode cell = 0)
    ∧ specSuccessCount [⟨0, 0, 7, none, [true]⟩] (fun _ => some 0) 0 = 1
    ∧ main.successes[0]? ≠ some ((specSuccessCount [] (fun _ => some 0) 0 : Nat) : Int)
    ∧ main.successes[0]? ≠
        some ((specSuccessCount [⟨0, 0, 7, none, [true]⟩] (fun _ => some 0) 0 : Nat) : Int) := by
  refine ⟨rfl, ?_, ?_, ?_, ?_, ?_⟩
  · simp only [main.metrics, main.successes, main.payloadSize, main.simulationTime,
      CalculateThroughputAndSuccess, List.length_cons, List.length_nil]
    simp only [show ((0 + 1 + 1 + 1 : Nat) : Int).toNat = 3 from rfl,
      CalculateThroughputAndSuccess.loop]
    norm_num [throughput, successProbability]
  · intro bssNode cell
    simp [specSuccessCount]
  · simp [specSuccessCount, classifiedSuccess]
  · simp [specSuccessCount, main.successes]
  · simp [specSuccessCount, classifiedSuccess, main.successes]

/-- C3 (as stated, the worked example fails): 100 successes of 1500 bytes in
10 seconds are not 1,200,000 bits per second (nor 1.2 Mbps) but 120,000 bits
per second, printed as 0.12 Mbps. -/
theorem C3_example_counterexample :
    ¬ (throughput 100 1500 10 = 1200000)
    ∧ ¬ (∃ p, CalculateThroughputAndSuccess 1 [100] 1500 10 = some [⟨1, 6 / 5, p⟩]) := by
  constructor
  · norm_num [throughput]
  · rintro ⟨p, hp⟩
    simp only [CalculateThroughputAndSuccess, show (1 : Int).toNat = 1 from rfl,
      CalculateThroughputAndSuccess.loop] at hp
    norm_num [throughput] at hp

/-- C3 (amended): when `numBSS` does not exceed the length of `successes` and
the simulation time is non-zero, `CalculateThroughputAndSuccess` prints one
line per cell and the line of cell `b` reports
`successes[b] * payloadSize * 8 / simulationTime` bits per second divided by
`10^6`; with 100 successes, payload 1500 and 10 seconds this is 120,000 bits
per second, 0.12 Mbps. -/
theorem C3_throughput_formula (numBSS : Int) (successes : List Int) (payloadSize : Int)
    (simulationTime : ℚ) (hlen : numBSS ≤ successes.length) (ht : simulationTime ≠ 0) :
    (∃ out, CalculateThroughputAndSuccess numBSS successes payloadSize simulationTime = some out
      ∧ out.length = numBSS.toNat
      ∧ ∀ b : Nat, (b : Int) < numBSS →
          ∃ (s : Int) (row : BssReport), successes[b]? = some s ∧ out[b]? = some row
            ∧ row.bss = (b : Int) + 1
            ∧ row.throughputMbps
                = ((s : ℚ) * (payloadSize : ℚ) * 8 / simulationTime) / 10 ^ 6
            ∧ row.throughputMbps * 10 ^ 6 * simulationTime = (s : ℚ) * (payloadSize : ℚ) * 8)
    ∧ throughput 100 1500 10 = 120000
    ∧ (∃ p, CalculateThroughputAndSuccess 1 [100] 1500 10 = some [⟨1, 3 / 25, p⟩]) := by
  refine ⟨?_, ?_, ?_⟩
  · have hn : 0 + numBSS.toNat ≤ successes.length := by omega
    refine ⟨_, CalculateThroughputAndSuccess_loop_eq successes payloadSize simulationTime
      numBSS.toNat 0 hn, by simp, ?_⟩
    intro b hb
    have hbl : b < successes.length := by omega
    have hs : successes[b]? = some successes[b] := List.getElem?_eq_getElem hbl
    obtain ⟨out, hout, _, hrow⟩ := CalculateThroughputAndSuccess_row numBSS successes
      payloadSize simulationTime b successes[b] hlen hb hs
    unfold CalculateThroughputAndSuccess at hout
    rw [CalculateThroughputAndSuccess_loop_eq successes payloadSize simulationTime
      numBSS.toNat 0 hn] at hout
    refine ⟨successes[b], ⟨(b : Int) + 1,
      throughput successes[b] payloadSize simulationTime / 1e6,
      successProbability successes[b]⟩, hs, ?_, rfl, ?_, ?_⟩
    · rw [Option.some.inj hout]; exact hrow
    · simp only [throughput]; norm_num
    · simp only [throughput]
      field_simp
      norm_num
      ring
  · norm_num [throughput]
  · refine ⟨successProbability 100, ?_⟩
    simp only [CalculateThroughputAndSuccess, show (1 : Int).toNat = 1 from rfl,
      CalculateThroughputAndSuccess.loop]
    norm_num [throughput]

/-- Witness of C3: the three cells of `main`. -/
theorem C3_throughput_formula_witness :
    (∃ out, CalculateThroughputAndSuccess 3 [100, 120, 110] 1500 10 = some out
      ∧ out.length = (3 : Int).toNat
      ∧ ∀ b : Nat, (b : Int) < 3 →
          ∃ (s : Int) (row : BssReport), [100, 120, 110][b]? = some s ∧ out[b]? = some row
            ∧ row.bss = (b : Int) + 1
            ∧ row.throughputMbps = ((s : ℚ) * ((1500 : Int) : ℚ) * 8 / 10) / 10 ^ 6
            ∧ row.throughputMbps * 10 ^ 6 * 10 = (s : ℚ) * ((1500 : Int) : ℚ) * 8)
    ∧ throughput 100 1500 10 = 120000
    ∧ (∃ p, CalculateThroughputAndSuccess 1 [100] 1500 10 = some [⟨1, 3 / 25, p⟩]) :=
  C3_throughput_formula 3 [100, 120, 110] 1500 10 (by decide) (by norm_num)

/-- C4: for a cell with a non-negative success count `s`,
`CalculateThroughputAndSuccess` reports `s / (s + 10^-9)`; the denominator is
not zero, the value is 0 when `s = 0`, and for `s ≥ 1` it lies strictly
between 0 and 1 and grows strictly with `s`.  No count of failed attempts
enters the computation. -/
theorem C4_success_probability (numBSS : Int) (successes : List Int) (payloadSize : Int)
    (simulationTime : ℚ) (b : Nat) (s : Int) (hlen : numBSS ≤ successes.length)
    (hb : (b : Int) < numBSS) (hs : successes[b]? = some s) (h0 : 0 ≤ s) :
    (∃ out row, CalculateThroughputAndSuccess numBSS successes payloadSize simulationTime
        = some out ∧ out[b]? = some row
        ∧ row.successProbability = (s : ℚ) / ((s : ℚ) + 1 / 10 ^ 9))
    ∧ (s : ℚ) + 1 / 10 ^ 9 ≠ 0
    ∧ (s = 0 → successProbability s = 0)
    ∧ (1 ≤ s → 0 < successProbability s ∧ successProbability s < 1)
    ∧ (∀ s' : Int, s < s' → successProbability s < successProbability s') := by
  have hsq : (0 : ℚ) ≤ (s : ℚ) := by exact_mod_cast h0
  have hpos : (0 : ℚ) < (s : ℚ) + 1 / 10 ^ 9 := by positivity
  refine ⟨?_, ne_of_gt hpos, ?_, ?_, ?_⟩
  · obtain ⟨out, hout, _, hrow⟩ := CalculateThroughputAndSuccess_row numBSS successes
      payloadSize simulationTime b s hlen hb hs
    exact ⟨out, _, hout, hrow, successProbability_eq s⟩
  · intro hz
    simp [successProbability, hz]
  · intro h1
    have h1q : (1 : ℚ) ≤ (s : ℚ) := by exact_mod_cast h1
    rw [successProbability_eq]
    constructor
    · apply div_pos <;> linarith
    · rw [div_lt_one hpos]
      linarith [show (0 : ℚ) < 1 / 10 ^ 9 by positivity]
  · intro s' hlt
    have hltq : (s : ℚ) < (s' : ℚ) := by exact_mod_cast hlt
    have hpos' : (0 : ℚ) < (s' : ℚ) + 1 / 10 ^ 9 := by linarith
    rw [successProbability_eq, successProbability_eq, div_lt_div_iff₀ hpos hpos']
    nlinarith [show (0 : ℚ) < 1 / 10 ^ 9 by positivity]

/-- Witness of C4: the second cell of `main`, 120 successes. -/
theorem C4_success_probability_witness :
    (∃ out row, CalculateThroughputAndSuccess 3 [100, 120, 110] 1500 10
        = some out ∧ out[1]? = some row
        ∧ row.successProbability = ((120 : Int) : ℚ) / (((120 : Int) : ℚ) + 1 / 10 ^ 9))
    ∧ ((120 : Int) : ℚ) + 1 / 10 ^ 9 ≠ 0
    ∧ ((120 : Int) = 0 → successProbability 120 = 0)
    ∧ (1 ≤ (120 : Int) → 0 < successProbability 120 ∧ successProbability 120 < 1)
    ∧ (∀ s' : Int, 120 < s' → successProbability 120 < successProbability s') :=
  C4_success_probability 3 [100, 120, 110] 1500 10 1 120 (by decide) (by decide) rfl
    (by decide)

/-- C5: with one node per access-point device, `MacAddressToNodeId` aborts
exactly when the address is no access-point device address and no key of the
station map.  Otherwise it returns a node identifier: that of the access
point at the lowest matching device index if there is one (whatever the
station map holds), else the identifier stored in the station map. -/
theorem C5_MacAddressToNodeId (apDevices : List Mac48Address) (apNodes : List Nat)
    (staMap : Mac48Address → Option Nat) (address : Mac48Address)
    (hlen : apDevices.length ≤ apNodes.length) :
    (MacAddressToNodeId apDevices apNodes staMap address = Resolved.abort
        ↔ (address ∉ apDevices ∧ staMap address = none))
    ∧ MacAddressToNodeId apDevices apNodes staMap address ≠ Resolved.outOfRange
    ∧ (∀ (i id : Nat), apDevices[i]? = some address → (∀ j, j < i → apDevices[j]? ≠ some address) →
        apNodes[i]? = some id →
        MacAddressToNodeId apDevices apNodes staMap address = Resolved.nodeId id)
    ∧ (address ∉ apDevices → ∀ id, staMap address = some id →
        MacAddressToNodeId apDevices apNodes staMap address = Resolved.nodeId id) := by
  have hfirst : ∀ (i id : Nat), apDevices[i]? = some address →
      (∀ j, j < i → apDevices[j]? ≠ some address) → apNodes[i]? = some id →
      MacAddressToNodeId apDevices apNodes staMap address = Resolved.nodeId id := by
    intro i id hi hmin hid
    unfold MacAddressToNodeId
    rw [MacAddressToNodeId_loop_first address apNodes apDevices 0 i hi hmin]
    simp [hid]
  have hnot : address ∉ apDevices →
      MacAddressToNodeId apDevices apNodes staMap address
        = (match staMap address with
           | some id => Resolved.nodeId id
           | none => Resolved.abort) := by
    intro hmem
    unfold MacAddressToNodeId
    rw [(MacAddressToNodeId_loop_none_iff address apNodes apDevices 0).mpr hmem]
  have hmemcase : address ∈ apDevices →
      ∃ id, MacAddressToNodeId apDevices apNodes staMap address = Resolved.nodeId id := by
    intro hmem
    have hex : ∃ i : Nat, apDevices[i]? = some address := by
      obtain ⟨i, hi, hget⟩ := List.getElem_of_mem hmem
      exact ⟨i, by rw [List.getElem?_eq_getElem hi, hget]⟩
    classical
    have hi := Nat.find_spec hex
    have hmin : ∀ j, j < Nat.find hex → apDevices[j]? ≠ some address :=
      fun j hj => Nat.find_min hex hj
    have hlt : Nat.find hex < apDevices.length := by
      by_contra hge
      rw [List.getElem?_eq_none (by omega)] at hi
      cases hi
    have hn : Nat.find hex < apNodes.length := by omega
    exact ⟨apNodes[Nat.find hex], hfirst _ _ hi hmin (List.getElem?_eq_getElem hn)⟩
  refine ⟨?_, ?_, hfirst, ?_⟩
  · constructor
    · intro habort
      by_cases hmem : address ∈ apDevices
      · obtain ⟨id, hid⟩ := hmemcase hmem
        rw [hid] at habort
        cases habort
      · refine ⟨hmem, ?_⟩
        rw [hnot hmem] at habort
        cases hsta : staMap address with
        | none => rfl
        | some id => rw [hsta] at habort; cases habort
    · rintro ⟨hmem, hsta⟩
      rw [hnot hmem, hsta]
  · by_cases hmem : address ∈ apDevices
    · obtain ⟨id, hid⟩ := hmemcase hmem
      rw [hid]
      intro h
      cases h
    · rw [hnot hmem]
      cases staMap address <;> intro h <;> cases h
  · intro hmem id hsta
    rw [hnot hmem, hsta]

/-- Witness of C5: two access points with addresses 10 and 11, one station
with address 20. -/
theorem C5_MacAddressToNodeId_witness :
    (MacAddressToNodeId [10, 11] [0, 1] (main.populateStaMap [(20, 2)]) 11 = Resolved.abort
        ↔ ((11 : Mac48Address) ∉ [10, 11] ∧ main.populateStaMap [(20, 2)] 11 = none))
    ∧ MacAddressToNodeId [10, 11] [0, 1] (main.populateStaMap [(20, 2)]) 11
        ≠ Resolved.outOfRange
    ∧ (∀ (i id : Nat), [10, 11][i]? = some (11 : Mac48Address) →
        (∀ j, j < i → [10, 11][j]? ≠ some (11 : Mac48Address)) →
        [0, 1][i]? = some id →
        MacAddressToNodeId [10, 11] [0, 1] (main.populateStaMap [(20, 2)]) 11
          = Resolved.nodeId id)
    ∧ ((11 : Mac48Address) ∉ [10, 11] → ∀ id, main.populateStaMap [(20, 2)] 11 = some id →
        MacAddressToNodeId [10, 11] [0, 1] (main.populateStaMap [(20, 2)]) 11
          = Resolved.nodeId id) :=
  C5_MacAddressToNodeId [10, 11] [0, 1] (main.populateStaMap [(20, 2)]) 11 (by decide)

/-- C6: a run of `CheckAssociation` takes the Stable branch (prints
`associated N Sta:` with the counter) exactly when the counter is at least
the number of stations, and otherwise takes the Converging branch, which
does not enter Stable.  In every state reachable from the start of the run,
every Stable entry was made with a counter at least the station count. -/
theorem C6_stable_iff_counter_reached (cfg : Config) (w : World) :
    ((CheckAssociation cfg w).cout = w.cout ++ [Printed.associatedNSta w.associatedStas]
        ↔ w.staNodes.length ≤ w.associatedStas)
    ∧ ((CheckAssociation cfg w).cout = w.cout ++ [Printed.restartedAssociation]
        ↔ w.associatedStas < w.staNodes.length)
    ∧ (w.associatedStas < w.staNodes.length →
        (enteredStable (CheckAssociation cfg w) ↔ enteredStable w))
    ∧ (∀ (staNodes : List StaNode) (apNodes : List ApNode)
        (staMap : Mac48Address → Option Nat) (inputs : List Input) (n : Nat),
        Printed.associatedNSta n ∈
            (Simulator.run cfg (main.initialWorld staNodes apNodes staMap) inputs).cout →
          (Simulator.run cfg (main.initialWorld staNodes apNodes staMap) inputs).staNodes.length
            ≤ n) := by
  refine ⟨?_, ?_, ?_, ?_⟩
  · by_cases hc : w.associatedStas < w.staNodes.length
    · rw [CheckAssociation_converging cfg w hc]
      simp [Nat.not_le.mpr hc]
    · have hge := Nat.le_of_not_lt hc
      rw [CheckAssociation_stable cfg w hge]
      simp [hge]
  · by_cases hc : w.associatedStas < w.staNodes.length
    · rw [CheckAssociation_converging cfg w hc]
      simp [hc]
    · have hge := Nat.le_of_not_lt hc
      rw [CheckAssociation_stable cfg w hge]
      simp [hc]
  · intro hc
    rw [CheckAssociation_converging cfg w hc]
    simp [enteredStable]
  · intro staNodes apNodes staMap inputs n hn
    have hinv := ControllerInv_reachable cfg staNodes apNodes staMap inputs
    rw [hinv.nsta]
    exact hinv.stableCounter n hn

/-- C7: a Converging run of `CheckAssociation` schedules exactly one further
check, one second after the current time, and a Stable run schedules none.
From the single check scheduled by `main` at 1.5 s, in every reachable state
at most one check is pending, every pending or dispatched check has a time
`1.5 + k`, and once Stable has been entered it stays entered, nothing is
pending and dispatching changes nothing.  As long as the counter stays below
the station count and the stop time is not reached, any number `n` of
checks run and the next one is pending at `1.5 + n`. -/
theorem C7_check_scheduling (cfg : Config) (w : World) :
    (w.associatedStas < w.staNodes.length →
        (CheckAssociation cfg w).events = w.events ++ [w.now + 1])
    ∧ (w.staNodes.length ≤ w.associatedStas → (CheckAssociation cfg w).events = w.events)
    ∧ (∀ (staNodes : List StaNode) (apNodes : List ApNode)
        (staMap : Mac48Address → Option Nat) (inputs : List Input),
        (Simulator.run cfg (main.initialWorld staNodes apNodes staMap) inputs).events.length ≤ 1
        ∧ (∀ t ∈ (Simulator.run cfg (main.initialWorld staNodes apNodes staMap) inputs).events,
            ∃ k : Nat, t = 3 / 2 + (k : ℚ))
        ∧ (∀ t rest,
            Simulator.dispatch cfg
                (Simulator.run cfg (main.initialWorld staNodes apNodes staMap) inputs)
              = some (t, rest) → (∃ k : Nat, t = 3 / 2 + (k : ℚ)) ∧ rest = [])
        ∧ (enteredStable (Simulator.run cfg (main.initialWorld staNodes apNodes staMap) inputs) →
            (Simulator.run cfg (main.initialWorld staNodes apNodes staMap) inputs).events = []
            ∧ Simulator.step cfg
                (Simulator.run cfg (main.initialWorld staNodes apNodes staMap) inputs)
                Input.runNext
              = Simulator.run cfg (main.initialWorld staNodes apNodes staMap) inputs
            ∧ ∀ more : List Input,
                enteredStable
                  (Simulator.run cfg (main.initialWorld staNodes apNodes staMap)
                    (inputs ++ more))
                ∧ (Simulator.run cfg (main.initialWorld staNodes apNodes staMap)
                    (inputs ++ more)).events = []))
    ∧ (∀ (staNodes : List StaNode) (apNodes : List ApNode)
        (staMap : Mac48Address → Option Nat) (n : Nat),
        staNodes ≠ [] → 3 / 2 + (n : ℚ) ≤ stopTime cfg →
        (Simulator.run cfg (main.initialWorld staNodes apNodes staMap)
            (List.replicate n Input.runNext)).events = [3 / 2 + (n : ℚ)]
        ∧ (Simulator.run cfg (main.initialWorld staNodes apNodes staMap)
            (List.replicate n Input.runNext)).cout
          = List.replicate n Printed.restartedAssociation) := by
  refine ⟨?_, ?_, ?_, ?_⟩
  · intro hc
    rw [CheckAssociation_converging cfg w hc]
  · intro hge
    rw [CheckAssociation_stable cfg w hge]
  · intro staNodes apNodes staMap inputs
    have hinv := ControllerInv_reachable cfg staNodes apNodes staMap inputs
    refine ⟨hinv.atMostOne, hinv.onGrid, ?_, ?_⟩
    · intro t rest hd
      rcases dispatch_of_atMostOne cfg _ hinv.atMostOne with hnone | ⟨u, hev, _, hsome⟩
      · rw [hnone] at hd; cases hd
      · have hg := hinv.onGrid u (by rw [hev]; exact List.mem_singleton.mpr rfl)
        rw [hsome] at hd
        cases hd
        exact ⟨by simpa [firstCheckTime] using hg, rfl⟩
    · intro hs
      have hnil := hinv.stableIdle hs
      refine ⟨hnil, ?_, ?_⟩
      · unfold Simulator.step
        split
        · rfl
        · simp only [dispatch_nil cfg _ hnil]
      · intro more
        rw [run_append]
        have hs2 := enteredStable_run cfg more _ hs
        refine ⟨hs2, ?_⟩
        have hinv2 := ControllerInv_reachable cfg staNodes apNodes staMap (inputs ++ more)
        rw [run_append] at hinv2
        exact hinv2.stableIdle hs2
  · intro staNodes apNodes staMap n hne hstop
    have hpos : 0 < staNodes.length := List.length_pos.mpr hne
    have h := converging_runs cfg n (main.initialWorld staNodes apNodes staMap) 0 rfl
      (by simpa [main.initialWorld] using hpos)
      (by simp [main.initialWorld])
      (by simpa [firstCheckTime] using hstop)
    simpa [firstCheckTime, main.initialWorld] using h

/-- C8 (as stated, fails at the defaults): with `txPower = 50` the Converging
branch leaves the station and the access point of `exampleWorld` at
transmit power 35, below the nominal 50; and with `ccaSensitivity = -90` it
sets the threshold -82, above the nominal one. -/
theorem C8_relaxation_counterexample :
    exampleWorld.associatedStas < exampleWorld.staNodes.length
    ∧ ¬ (∀ sta ∈ (CheckAssociation Config.defaults exampleWorld).staNodes,
          Config.defaults.txPower ≤ sta.phy.txPowerStart
          ∧ Config.defaults.txPower ≤ sta.phy.txPowerEnd)
    ∧ ¬ (∀ ap ∈ (CheckAssociation Config.defaults exampleWorld).apNodes,
          Config.defaults.txPower ≤ ap.phy.txPowerStart
          ∧ Config.defaults.txPower ≤ ap.phy.txPowerEnd)
    ∧ ¬ (∀ sta ∈ (CheckAssociation ⟨-90, 50, 1⟩ exampleWorld).staNodes,
          sta.phy.ccaSensitivityThreshold ≤ (⟨-90, 50, 1⟩ : Config).ccaSensitivity) := by
  have hc : exampleWorld.associatedStas < exampleWorld.staNodes.length := by
    simp [exampleWorld, main.initialWorld]
  refine ⟨hc, ?_, ?_, ?_⟩
  · rw [CheckAssociation_converging _ _ hc]
    norm_num [exampleWorld, main.initialWorld, Config.defaults]
  · rw [CheckAssociation_converging _ _ hc]
    norm_num [exampleWorld, main.initialWorld, Config.defaults]
  · rw [CheckAssociation_converging _ _ hc]
    norm_num [exampleWorld, main.initialWorld]

/-- C8 (amended): while Converging, every check sets every station radio and
every access-point radio to the fixed values threshold -82 and transmit power
35 (start and end), whatever the configuration.  The threshold set is at most
the nominal `ccaSensitivity` exactly when `ccaSensitivity ≥ -82`, and the
power set is at least the nominal `txPower` exactly when `txPower ≤ 35`; with
the defaults the threshold equals the nominal one. -/
theorem C8_converging_sets_fixed_values (cfg : Config) (w : World)
    (hc : w.associatedStas < w.staNodes.length) :
    (CheckAssociation cfg w).staNodes.length = w.staNodes.length
    ∧ (CheckAssociation cfg w).apNodes.length = w.apNodes.length
    ∧ (∀ sta ∈ (CheckAssociation cfg w).staNodes,
        sta.phy = ⟨-82, 35, 35⟩
        ∧ (sta.phy.ccaSensitivityThreshold ≤ cfg.ccaSensitivity ↔ -82 ≤ cfg.ccaSensitivity)
        ∧ (cfg.txPower ≤ sta.phy.txPowerStart ↔ cfg.txPower ≤ 35)
        ∧ (cfg.txPower ≤ sta.phy.txPowerEnd ↔ cfg.txPower ≤ 35))
    ∧ (∀ ap ∈ (CheckAssociation cfg w).apNodes,
        ap.phy = ⟨-82, 35, 35⟩
        ∧ (ap.phy.ccaSensitivityThreshold ≤ cfg.ccaSensitivity ↔ -82 ≤ cfg.ccaSensitivity)
        ∧ (cfg.txPower ≤ ap.phy.txPowerStart ↔ cfg.txPower ≤ 35)
        ∧ (cfg.txPower ≤ ap.phy.txPowerEnd ↔ cfg.txPower ≤ 35))
    ∧ (-82 : ℚ) = Config.defaults.ccaSensitivity := by
  rw [CheckAssociation_converging cfg w hc]
  refine ⟨by simp, by simp, ?_, ?_, rfl⟩
  · intro sta hsta
    simp only [List.mem_map] at hsta
    obtain ⟨sta0, _, rfl⟩ := hsta
    exact ⟨rfl, Iff.rfl, Iff.rfl, Iff.rfl⟩
  · intro ap hap
    simp only [List.mem_map] at hap
    obtain ⟨ap0, _, rfl⟩ := hap
    exact ⟨rfl, Iff.rfl, Iff.rfl, Iff.rfl⟩

/-- Witness of C8 (amended): the first check of `exampleWorld` under the
default configuration. -/
theorem C8_converging_sets_fixed_values_witness :
    (CheckAssociation Config.defaults exampleWorld).staNodes.length
        = exampleWorld.staNodes.length
    ∧ (CheckAssociation Config.defaults exampleWorld).apNodes.length
        = exampleWorld.apNodes.length
    ∧ (∀ sta ∈ (CheckAssociation Config.defaults exampleWorld).staNodes,
        sta.phy = ⟨-82, 35, 35⟩
        ∧ (sta.phy.ccaSensitivityThreshold ≤ Config.defaults.ccaSensitivity
            ↔ -82 ≤ Config.defaults.ccaSensitivity)
        ∧ (Config.defaults.txPower ≤ sta.phy.txPowerStart ↔ Config.defaults.txPower ≤ 35)
        ∧ (Config.defaults.txPower ≤ sta.phy.txPowerEnd ↔ Config.defaults.txPower ≤ 35))
    ∧ (∀ ap ∈ (CheckAssociation Config.defaults exampleWorld).apNodes,
        ap.phy = ⟨-82, 35, 35⟩
        ∧ (ap.phy.ccaSensitivityThreshold ≤ Config.defaults.ccaSensitivity
            ↔ -82 ≤ Config.defaults.ccaSensitivity)
        ∧ (Config.defaults.txPower ≤ ap.phy.txPowerStart ↔ Config.defaults.txPower ≤ 35)
        ∧ (Config.defaults.txPower ≤ ap.phy.txPowerEnd ↔ Config.defaults.txPower ≤ 35))
    ∧ (-82 : ℚ) = Config.defaults.ccaSensitivity :=
  C8_converging_sets_fixed_values Config.defaults exampleWorld
    (by simp [exampleWorld, main.initialWorld])

/-- C9: the Stable branch sets every station radio and every access-point
radio to threshold `ccaSensitivity` and transmit power `txPower` (start and
end), sets every access point's beacon interval to `65535 * 1024` =
67,107,840 microseconds, asks no station to re-scan and schedules nothing;
the product fits a 32-bit `int` and is the largest multiple of 1024 with a
16-bit factor.  The Converging branch leaves every beacon interval as it
was. -/
theorem C9_stable_branch_effects (cfg : Config) (w : World) :
    (w.staNodes.length ≤ w.associatedStas →
      (CheckAssociation cfg w).staNodes.length = w.staNodes.length
      ∧ (∀ sta ∈ (CheckAssociation cfg w).staNodes,
          sta.phy = ⟨cfg.ccaSensitivity, cfg.txPower, cfg.txPower⟩)
      ∧ (CheckAssociation cfg w).apNodes.length = w.apNodes.length
      ∧ (∀ ap ∈ (CheckAssociation cfg w).apNodes,
          ap.phy = ⟨cfg.ccaSensitivity, cfg.txPower, cfg.txPower⟩
          ∧ ap.beaconInterval = 67107840)
      ∧ (CheckAssociation cfg w).staNodes.map StaNode.scanningTimeouts
          = w.staNodes.map StaNode.scanningTimeouts
      ∧ (CheckAssociation cfg w).staNodes.map StaNode.isAssociated
          = w.staNodes.map StaNode.isAssociated
      ∧ (CheckAssociation cfg w).events = w.events)
    ∧ (w.associatedStas < w.staNodes.length →
        (CheckAssociation cfg w).apNodes.map ApNode.beaconInterval
          = w.apNodes.map ApNode.beaconInterval)
    ∧ stableBeaconInterval = 67107840
    ∧ stableBeaconInterval < 2 ^ 31
    ∧ (∀ n : Nat, n < 2 ^ 16 → n * 1024 ≤ stableBeaconInterval) := by
  refine ⟨?_, ?_, rfl, by decide, ?_⟩
  · intro hge
    rw [CheckAssociation_stable cfg w hge]
    refine ⟨by simp, ?_, by simp, ?_, ?_, ?_, rfl⟩
    · intro sta hsta
      simp only [List.mem_map] at hsta
      obtain ⟨sta0, _, rfl⟩ := hsta
      rfl
    · intro ap hap
      simp only [List.mem_map] at hap
      obtain ⟨ap0, _, rfl⟩ := hap
      exact ⟨rfl, rfl⟩
    · simp [List.map_map, Function.comp_def]
    · simp [List.map_map, Function.comp_def]
  · intro hc
    rw [CheckAssociation_converging cfg w hc]
    simp [List.map_map, Function.comp_def]
  · intro n hn
    unfold stableBeaconInterval
    omega

/-- C10 (as stated, fails for long runs): with `duration = 100` the station of
`exampleWorld` associates and the first check, at 1.5 s, enters Stable; the
interval it sets is 67.10784 s while 108.5 s remain until the stop time
110 s. -/
theorem C10_interval_counterexample :
    enteredStable (Simulator.run ⟨-82, 50, 100⟩ exampleWorld
        [Input.associated 1 20, Input.runNext])
    ∧ (Simulator.run ⟨-82, 50, 100⟩ exampleWorld
        [Input.associated 1 20, Input.runNext]).now = 3 / 2
    ∧ (Simulator.run ⟨-82, 50, 100⟩ exampleWorld
        [Input.associated 1 20, Input.runNext]).now < stopTime ⟨-82, 50, 100⟩
    ∧ ¬ (∀ ap ∈ (Simulator.run ⟨-82, 50, 100⟩ exampleWorld
          [Input.associated 1 20, Input.runNext]).apNodes,
        stopTime ⟨-82, 50, 100⟩
            - (Simulator.run ⟨-82, 50, 100⟩ exampleWorld
                [Input.associated 1 20, Input.runNext]).now
          ≤ (ap.beaconInterval : ℚ) / 10 ^ 6) := by
  have hrun : Simulator.run ⟨-82, 50, 100⟩ exampleWorld [Input.associated 1 20, Input.runNext]
      = { exampleWorld with
          associatedStas := 1
          now := 3 / 2
          events := []
          cout := [Printed.nodeAssociated 1, Printed.associatedNSta 1]
          staNodes := [exampleSta]
          apNodes := [{ exampleAp with beaconInterval := stableBeaconInterval }] } := by
    simp [Simulator.run, Simulator.step, exampleWorld, main.initialWorld, AssociatedSta,
      MacAddressToNodeId, MacAddressToNodeId.loop, main.populateStaMap, exampleAp,
      exampleSta, Simulator.dispatch, Simulator.earliest, firstCheckTime, stopTime,
      CheckAssociation]
    norm_num
  rw [hrun]
  refine ⟨⟨1, by simp⟩, rfl, by norm_num [stopTime], ?_⟩
  norm_num [stopTime, stableBeaconInterval]

/-- C10 (amended): a check at time `1.5 + k` that enters Stable sets every
access point's beacon interval to 67.10784 s, and this is at least the time
remaining until the stop time `10 + duration` exactly when
`duration ≤ 58.60784 + k`; in particular it is for every check time when
`duration ≤ 58.60784`, as with the default duration 1. -/
theorem C10_interval_covers_short_runs (cfg : Config) (w : World) (k : Nat)
    (hnow : w.now = firstCheckTime + (k : ℚ))
    (hstable : w.staNodes.length ≤ w.associatedStas) :
    (∀ ap ∈ (CheckAssociation cfg w).apNodes,
        (ap.beaconInterval : ℚ) / 10 ^ 6 = 6710784 / 100000
        ∧ (stopTime cfg - (CheckAssociation cfg w).now ≤ (ap.beaconInterval : ℚ) / 10 ^ 6
            ↔ cfg.duration ≤ 5860784 / 100000 + (k : ℚ))
        ∧ (cfg.duration ≤ 5860784 / 100000 →
            stopTime cfg - (CheckAssociation cfg w).now ≤ (ap.beaconInterval : ℚ) / 10 ^ 6))
    ∧ Config.defaults.duration ≤ 5860784 / 100000 := by
  rw [CheckAssociation_stable cfg w hstable]
  refine ⟨?_, by norm_num [Config.defaults]⟩
  intro ap hap
  simp only [List.mem_map] at hap
  obtain ⟨ap0, _, rfl⟩ := hap
  have hk : (0 : ℚ) ≤ (k : ℚ) := Nat.cast_nonneg k
  simp only [hnow, stopTime, firstCheckTime, stableBeaconInterval]
  refine ⟨by norm_num, ?_, ?_⟩
  · constructor
    · intro h
      norm_num at h
      linarith
    · intro h
      norm_num
      linarith
  · intro h
    norm_num
    linarith

/-- Witness of C10 (amended): `exampleWorld` with its station counted as
associated, checked at 1.5 s under the default configuration. -/
theorem C10_interval_covers_short_runs_witness :
    (∀ ap ∈ (CheckAssociation Config.defaults
          { exampleWorld with associatedStas := 1, now := 3 / 2, events := [] }).apNodes,
        (ap.beaconInterval : ℚ) / 10 ^ 6 = 6710784 / 100000
        ∧ (stopTime Config.defaults
              - (CheckAssociation Config.defaults
                  { exampleWorld with associatedStas := 1, now := 3 / 2, events := [] }).now
              ≤ (ap.beaconInterval : ℚ) / 10 ^ 6
            ↔ Config.defaults.duration ≤ 5860784 / 100000 + ((0 : Nat) : ℚ))
        ∧ (Config.defaults.duration ≤ 5860784 / 100000 →
            stopTime Config.defaults
              - (CheckAssociation Config.defaults
                  { exampleWorld with associatedStas := 1, now := 3 / 2, events := [] }).now
              ≤ (ap.beaconInterval : ℚ) / 10 ^ 6))
    ∧ Config.defaults.duration ≤ 5860784 / 100000 :=
  C10_interval_covers_short_runs Config.defaults
    { exampleWorld with associatedStas := 1, now := 3 / 2, events := [] } 0
    (by norm_num [firstCheckTime])
    (by simp [exampleWorld, main.initialWorld])

/-- C11 (as stated, fails when the station count wraps): with 3 access
points and 1431655766 stations per cell the `uint32_t` product
`apNodeCount * networkSize` is 2.  Index 2 is below `3 * 1431655766` but no
station is placed for it, and station 1 (radius 1) is placed at angle `π`,
so its `x` coordinate is not `ap.x + cos (1 * (2π / (3 * 1431655766)))`. -/
theorem C11_wrapped_count_counterexample :
    main.stationCount 3 1431655766 = 2
    ∧ (2 < 3 * 1431655766
        ∧ (main.discPlacement (⟨Real.sqrt, Real.cos, Real.sin, Real.pi⟩ : CMath ℝ) 1
            2 3 1431655766)[2]? = none)
    ∧ (1 < 3 * 1431655766
        ∧ ∃ sta : Point ℝ,
            (main.discPlacement (⟨Real.sqrt, Real.cos, Real.sin, Real.pi⟩ : CMath ℝ) 1
              2 3 1431655766)[1]? = some (some sta)
            ∧ sta.x = (main.apPosition 2 (1 % 3) : Point ℝ).x - 1
            ∧ sta.x ≠ (main.apPosition 2 (1 % 3) : Point ℝ).x
                + 1 * Real.cos (((1 : Nat) : ℝ)
                    * (2 * Real.pi / (((3 : Nat) : ℝ) * ((1431655766 : Nat) : ℝ))))) := by
  have h : main.stationCount 3 1431655766 = 2 := by
    unfold main.stationCount
    norm_num
  have hpi := Real.pi_pos
  refine ⟨h, ⟨by decide, ?_⟩, by decide, ?_⟩
  · apply List.getElem?_eq_none
    simp [main.discPlacement, h]
  · have hplaced := discPlacement_getElem? (⟨Real.sqrt, Real.cos, Real.sin, Real.pi⟩ : CMath ℝ)
      1 2 3 1431655766 1 (by decide) (by rw [h]; decide)
    refine ⟨_, hplaced, ?_, ?_⟩
    · simp only [h]
      have hangle : ((1 : Nat) : ℝ) * (2 * Real.pi / ((2 : Nat) : ℝ)) = Real.pi := by
        push_cast
        ring
      rw [hangle, Real.cos_pi]
      ring
    · simp only [h]
      have hangle : ((1 : Nat) : ℝ) * (2 * Real.pi / ((2 : Nat) : ℝ)) = Real.pi := by
        push_cast
        ring
      rw [hangle, Real.cos_pi]
      have hsmall : 0 < Real.cos (((1 : Nat) : ℝ)
          * (2 * Real.pi / (((3 : Nat) : ℝ) * ((1431655766 : Nat) : ℝ)))) := by
        apply Real.cos_pos_of_mem_Ioo
        constructor
        · have : (0 : ℝ) ≤ ((1 : Nat) : ℝ)
              * (2 * Real.pi / (((3 : Nat) : ℝ) * ((1431655766 : Nat) : ℝ))) := by
            positivity
          linarith
        · push_cast
          rw [one_mul, div_lt_iff₀ (by norm_num)]
          nlinarith
      intro heq
      linarith

/-- C11 (amended): under `disc`, with `A ≥ 1` access points and `n` stations
per cell such that `A * n < 2^32` (the `uint32_t` station count does not
wrap) and a non-negative radius, the station count is `N = A * n` and every
station `i < N` belongs to cell `i % A` and is placed at
`(ap.x + radius * cos θ, ap.y + radius * sin θ)` with `ap` the position of
access point `i % A` and `θ = i * (2π / (A * n))`, the step being taken over
the total station count; over the reals its distance from that access point
is exactly `radius`.  No random value is used. -/
theorem C11_disc_placement (apNodeCount networkSize distanceAps : Nat) (radius : ℝ)
    (i : Nat) (hA : 1 ≤ apNodeCount) (hbound : apNodeCount * networkSize < 2 ^ 32)
    (hr : 0 ≤ radius) (hi : i < apNodeCount * networkSize) :
    main.stationCount apNodeCount networkSize = apNodeCount * networkSize
    ∧ (main.discPlacement (⟨Real.sqrt, Real.cos, Real.sin, Real.pi⟩ : CMath ℝ) radius
        distanceAps apNodeCount networkSize).length = apNodeCount * networkSize
    ∧ main.assignBssNode apNodeCount networkSize (main.staNodeId apNodeCount i)
        = some (i % apNodeCount)
    ∧ i % apNodeCount < apNodeCount
    ∧ ∃ ap sta : Point ℝ,
        (main.apPositions distanceAps apNodeCount)[i % apNodeCount]? = some ap
        ∧ (main.discPlacement (⟨Real.sqrt, Real.cos, Real.sin, Real.pi⟩ : CMath ℝ) radius
            distanceAps apNodeCount networkSize)[i]? = some (some sta)
        ∧ sta.x = ap.x + radius * Real.cos
            ((i : ℝ) * (2 * Real.pi / ((apNodeCount : ℝ) * (networkSize : ℝ))))
        ∧ sta.y = ap.y + radius * Real.sin
            ((i : ℝ) * (2 * Real.pi / ((apNodeCount : ℝ) * (networkSize : ℝ))))
        ∧ Real.sqrt ((sta.x - ap.x) ^ 2 + (sta.y - ap.y) ^ 2) = radius := by
  have hN := stationCount_of_lt apNodeCount networkSize hbound
  have hiN : i < main.stationCount apNodeCount networkSize := by rw [hN]; exact hi
  have hc : i % apNodeCount < apNodeCount := Nat.mod_lt _ (by omega)
  have hcast : ((main.stationCount apNodeCount networkSize : Nat) : ℝ)
      = (apNodeCount : ℝ) * (networkSize : ℝ) := by
    rw [hN]
    push_cast
    rfl
  have hplaced := discPlacement_getElem? (⟨Real.sqrt, Real.cos, Real.sin, Real.pi⟩ : CMath ℝ)
    radius distanceAps apNodeCount networkSize i hA hiN
  simp only [hcast] at hplaced
  refine ⟨hN, by simp [main.discPlacement, hN], assignBssNode_sta _ _ _ hiN, hc,
    main.apPosition distanceAps (i % apNodeCount), _,
    apPositions_getElem? distanceAps apNodeCount _ hc, hplaced, rfl, rfl, ?_⟩
  simp only [add_sub_cancel_left]
  have h : (radius * Real.cos ((i : ℝ) * (2 * Real.pi
        / ((apNodeCount : ℝ) * (networkSize : ℝ))))) ^ 2
      + (radius * Real.sin ((i : ℝ) * (2 * Real.pi
        / ((apNodeCount : ℝ) * (networkSize : ℝ))))) ^ 2 = radius ^ 2 := by
    have := Real.cos_sq_add_sin_sq ((i : ℝ) * (2 * Real.pi
        / ((apNodeCount : ℝ) * (networkSize : ℝ))))
    linear_combination radius ^ 2 * this
  rw [h, Real.sqrt_sq hr]

/-- Witness of C11 (amended): two access points with three stations each,
radius 1.1, station 3 (the second station of cell 1). -/
theorem C11_disc_placement_witness :
    main.stationCount 2 3 = 2 * 3
    ∧ (main.discPlacement (⟨Real.sqrt, Real.cos, Real.sin, Real.pi⟩ : CMath ℝ) (11 / 10)
        2 2 3).length = 2 * 3
    ∧ main.assignBssNode 2 3 (main.staNodeId 2 3) = some (3 % 2)
    ∧ 3 % 2 < 2
    ∧ ∃ ap sta : Point ℝ,
        (main.apPositions 2 2)[3 % 2]? = some ap
        ∧ (main.discPlacement (⟨Real.sqrt, Real.cos, Real.sin, Real.pi⟩ : CMath ℝ) (11 / 10)
            2 2 3)[3]? = some (some sta)
        ∧ sta.x = ap.x + 11 / 10 * Real.cos
            (((3 : Nat) : ℝ) * (2 * Real.pi / (((2 : Nat) : ℝ) * ((3 : Nat) : ℝ))))
        ∧ sta.y = ap.y + 11 / 10 * Real.sin
            (((3 : Nat) : ℝ) * (2 * Real.pi / (((2 : Nat) : ℝ) * ((3 : Nat) : ℝ))))
        ∧ Real.sqrt ((sta.x - ap.x) ^ 2 + (sta.y - ap.y) ^ 2) = 11 / 10 :=
  C11_disc_placement 2 3 2 (11 / 10) 3 (by decide) (by decide) (by norm_num) (by decide)

/-- C12 (as stated, fails for a negative radius): with `radius = -2` and the
samples 0.5, 0, 0, ... (all in `[0,1)`) the function returns at once, and
the distance of the returned point from the origin is `sqrt 2`, which is
not at most `radius`. -/
theorem C12_negative_radius_counterexample :
    (∀ j : Nat, (0 : ℝ) ≤ (if j = 0 then 1 / 2 else 0)
        ∧ (if j = 0 then (1 / 2 : ℝ) else 0) < 1)
    ∧ ∃ (p : Point ℝ) (used : Nat),
        generateRandomPointInCircle (⟨Real.sqrt, Real.cos, Real.sin, Real.pi⟩ : CMath ℝ) (-2)
            ⟨0, 0⟩ (fun j => if j = 0 then 1 / 2 else 0) 0 = some (p, used)
        ∧ ¬ (Real.sqrt ((p.x - 0) ^ 2 + (p.y - 0) ^ 2) ≤ -2) := by
  constructor
  · intro j
    by_cases hj : j = 0 <;> norm_num [hj]
  · refine ⟨_, 2, (generateRandomPointInCircle_real_iff (-2) ⟨0, 0⟩ _ 0 _ 2).mpr
      ⟨0, le_refl 0, fun j hj => absurd hj (Nat.not_lt_zero j), by norm_num, rfl, rfl⟩, ?_⟩
    intro h
    have := Real.sqrt_nonneg
      (((⟨0 + Real.sqrt ((-2) ^ 2 * (if (0 : Nat) = 0 then 1 / 2 else 0))
            * Real.cos (2 * Real.pi * (if (0 + 1 : Nat) = 0 then 1 / 2 else 0)),
          0 + Real.sqrt ((-2) ^ 2 * (if (0 : Nat) = 0 then 1 / 2 else 0))
            * Real.sin (2 * Real.pi * (if (0 + 1 : Nat) = 0 then 1 / 2 else 0))⟩ :
          Point ℝ).x - 0) ^ 2
        + ((⟨0 + Real.sqrt ((-2) ^ 2 * (if (0 : Nat) = 0 then 1 / 2 else 0))
            * Real.cos (2 * Real.pi * (if (0 + 1 : Nat) = 0 then 1 / 2 else 0)),
          0 + Real.sqrt ((-2) ^ 2 * (if (0 : Nat) = 0 then 1 / 2 else 0))
            * Real.sin (2 * Real.pi * (if (0 + 1 : Nat) = 0 then 1 / 2 else 0))⟩ :
          Point ℝ).y - 0) ^ 2)
    linarith

/-- C12 (amended): when `generateRandomPointInCircle` returns for a stream of
samples in `[0,1)`, the point is `origin + r * (cos φ, sin φ)` with
`r = sqrt (radius² * u)` for the first sample `u` with
`sqrt (radius² * u) ≥ 1` and `φ = 2π` times the next sample; over the reals
its distance from the origin is at least 1 and at most `|radius|`, hence at
most `radius` when `radius ≥ 0`.  Any larger number of allowed re-draws
gives the same result. -/
theorem C12_disc_random_point (radius : ℝ) (origin : Point ℝ) (samples : Nat → ℝ)
    (fuel : Nat) (p : Point ℝ) (used : Nat)
    (hs : ∀ j, 0 ≤ samples j ∧ samples j < 1)
    (hret : generateRandomPointInCircle (⟨Real.sqrt, Real.cos, Real.sin, Real.pi⟩ : CMath ℝ)
        radius origin samples fuel = some (p, used)) :
    ∃ k, k ≤ fuel
      ∧ (∀ j, j < k → Real.sqrt (radius ^ 2 * samples j) < 1)
      ∧ 1 ≤ Real.sqrt (radius ^ 2 * samples k)
      ∧ used = k + 2
      ∧ p.x = origin.x + Real.sqrt (radius ^ 2 * samples k)
                * Real.cos (2 * Real.pi * samples (k + 1))
      ∧ p.y = origin.y + Real.sqrt (radius ^ 2 * samples k)
                * Real.sin (2 * Real.pi * samples (k + 1))
      ∧ 1 ≤ Real.sqrt ((p.x - origin.x) ^ 2 + (p.y - origin.y) ^ 2)
      ∧ Real.sqrt ((p.x - origin.x) ^ 2 + (p.y - origin.y) ^ 2) ≤ |radius|
      ∧ (0 ≤ radius → Real.sqrt ((p.x - origin.x) ^ 2 + (p.y - origin.y) ^ 2) ≤ radius)
      ∧ (∀ fuel2, k ≤ fuel2 →
          generateRandomPointInCircle (⟨Real.sqrt, Real.cos, Real.sin, Real.pi⟩ : CMath ℝ)
            radius origin samples fuel2 = some (p, used)) := by
  obtain ⟨k, hk, hlow, hexit, hused, hp⟩ :=
    (generateRandomPointInCircle_real_iff radius origin samples fuel p used).mp hret
  have hone : 1 ≤ Real.sqrt (radius ^ 2 * samples k) := by
    rw [Real.le_sqrt' one_pos]
    simpa using hexit
  have hdist : Real.sqrt ((p.x - origin.x) ^ 2 + (p.y - origin.y) ^ 2)
      = Real.sqrt (radius ^ 2 * samples k) := by
    rw [hp]
    simp only [add_sub_cancel_left]
    have h : (Real.sqrt (radius ^ 2 * samples k)
          * Real.cos (2 * Real.pi * samples (k + 1))) ^ 2
        + (Real.sqrt (radius ^ 2 * samples k)
          * Real.sin (2 * Real.pi * samples (k + 1))) ^ 2
        = Real.sqrt (radius ^ 2 * samples k) ^ 2 := by
      have := Real.cos_sq_add_sin_sq (2 * Real.pi * samples (k + 1))
      linear_combination Real.sqrt (radius ^ 2 * samples k) ^ 2 * this
    rw [h, Real.sqrt_sq (Real.sqrt_nonneg _)]
  have hupper : Real.sqrt (radius ^ 2 * samples k) ≤ |radius| := by
    rw [Real.sqrt_le_left (abs_nonneg radius), sq_abs]
    have h1 := (hs k).2
    nlinarith [sq_nonneg radius]
  refine ⟨k, hk, ?_, hone, hused, by rw [hp], by rw [hp], by rw [hdist]; exact hone,
    by rw [hdist]; exact hupper, ?_, ?_⟩
  · intro j hj
    rw [Real.sqrt_lt' one_pos]
    simpa using hlow j hj
  · intro hr
    rw [hdist]
    rwa [abs_of_nonneg hr] at hupper
  · intro fuel2 hk2
    exact (generateRandomPointInCircle_real_iff radius origin samples fuel2 p used).mpr
      ⟨k, hk2, hlow, hexit, hused, hp⟩

/-- Witness of C12 (amended): radius 2, every sample 0.5, no re-draw. -/
theorem C12_disc_random_point_witness :
    ∃ k, k ≤ 0
      ∧ (∀ j, j < k → Real.sqrt ((2 : ℝ) ^ 2 * (1 / 2)) < 1)
      ∧ 1 ≤ Real.sqrt ((2 : ℝ) ^ 2 * (1 / 2))
      ∧ 2 = k + 2
      ∧ (0 : ℝ) + Real.sqrt ((2 : ℝ) ^ 2 * (1 / 2)) * Real.cos (2 * Real.pi * (1 / 2))
          = 0 + Real.sqrt ((2 : ℝ) ^ 2 * (1 / 2)) * Real.cos (2 * Real.pi * (1 / 2))
      ∧ (0 : ℝ) + Real.sqrt ((2 : ℝ) ^ 2 * (1 / 2)) * Real.sin (2 * Real.pi * (1 / 2))
          = 0 + Real.sqrt ((2 : ℝ) ^ 2 * (1 / 2)) * Real.sin (2 * Real.pi * (1 / 2))
      ∧ 1 ≤ Real.sqrt
          ((0 + Real.sqrt ((2 : ℝ) ^ 2 * (1 / 2)) * Real.cos (2 * Real.pi * (1 / 2)) - 0) ^ 2
            + (0 + Real.sqrt ((2 : ℝ) ^ 2 * (1 / 2)) * Real.sin (2 * Real.pi * (1 / 2)) - 0)
              ^ 2)
      ∧ Real.sqrt
          ((0 + Real.sqrt ((2 : ℝ) ^ 2 * (1 / 2)) * Real.cos (2 * Real.pi * (1 / 2)) - 0) ^ 2
            + (0 + Real.sqrt ((2 : ℝ) ^ 2 * (1 / 2)) * Real.sin (2 * Real.pi * (1 / 2)) - 0)
              ^ 2) ≤ |(2 : ℝ)|
      ∧ ((0 : ℝ) ≤ 2 → Real.sqrt
          ((0 + Real.sqrt ((2 : ℝ) ^ 2 * (1 / 2)) * Real.cos (2 * Real.pi * (1 / 2)) - 0) ^ 2
            + (0 + Real.sqrt ((2 : ℝ) ^ 2 * (1 / 2)) * Real.sin (2 * Real.pi * (1 / 2)) - 0)
              ^ 2) ≤ 2)
      ∧ (∀ fuel2, k ≤ fuel2 →
          generateRandomPointInCircle (⟨Real.sqrt, Real.cos, Real.sin, Real.pi⟩ : CMath ℝ)
            2 ⟨0, 0⟩ (fun _ => 1 / 2) fuel2
          = some (⟨0 + Real.sqrt ((2 : ℝ) ^ 2 * (1 / 2)) * Real.cos (2 * Real.pi * (1 / 2)),
                   0 + Real.sqrt ((2 : ℝ) ^ 2 * (1 / 2)) * Real.sin (2 * Real.pi * (1 / 2))⟩,
                  2)) :=
  C12_disc_random_point 2 ⟨0, 0⟩ (fun _ => 1 / 2) 0
    ⟨0 + Real.sqrt ((2 : ℝ) ^ 2 * (1 / 2)) * Real.cos (2 * Real.pi * (1 / 2)),
     0 + Real.sqrt ((2 : ℝ) ^ 2 * (1 / 2)) * Real.sin (2 * Real.pi * (1 / 2))⟩ 2
    (fun _ => by norm_num)
    ((generateRandomPointInCircle_real_iff 2 ⟨0, 0⟩ (fun _ => 1 / 2) 0 _ 2).mpr
      ⟨0, le_refl 0, fun j hj => absurd hj (Nat.not_lt_zero j), by norm_num, rfl, rfl⟩)

/-- C13: for every spacing `s`, access point `i` is placed at
`(s/2 + ox*s, s/2 + oy*s)` with `(ox, oy)` = (0,0), (1,0), (0,1), (1,1) for
`i` = 0, 1, 2, 3; every access point with index 4 or more is placed exactly
where access point 0 is; for `s > 0` the first four positions are pairwise
distinct. -/
theorem C13_ap_grid (distanceAps : Nat) :
    (main.apPosition distanceAps 0 : Point ℚ)
        = ⟨(distanceAps : ℚ) / 2 + 0 * distanceAps, (distanceAps : ℚ) / 2 + 0 * distanceAps⟩
    ∧ (main.apPosition distanceAps 1 : Point ℚ)
        = ⟨(distanceAps : ℚ) / 2 + 1 * distanceAps, (distanceAps : ℚ) / 2 + 0 * distanceAps⟩
    ∧ (main.apPosition distanceAps 2 : Point ℚ)
        = ⟨(distanceAps : ℚ) / 2 + 0 * distanceAps, (distanceAps : ℚ) / 2 + 1 * distanceAps⟩
    ∧ (main.apPosition distanceAps 3 : Point ℚ)
        = ⟨(distanceAps : ℚ) / 2 + 1 * distanceAps, (distanceAps : ℚ) / 2 + 1 * distanceAps⟩
    ∧ (∀ i : Nat, 4 ≤ i →
        (main.apPosition distanceAps i : Point ℚ) = main.apPosition distanceAps 0)
    ∧ (∀ apNodeCount i : Nat, i < apNodeCount →
        (main.apPositions distanceAps apNodeCount : List (Point ℚ))[i]?
          = some (main.apPosition distanceAps i))
    ∧ (0 < distanceAps → ∀ i j : Nat, i < 4 → j < 4 → i ≠ j →
        (main.apPosition distanceAps i : Point ℚ) ≠ main.apPosition distanceAps j) := by
  refine ⟨?_, ?_, ?_, ?_, ?_, ?_, ?_⟩
  · simp [main.apPosition]
  · simp [main.apPosition]
  · simp [main.apPosition]
  · simp [main.apPosition]
  · intro i hi
    have h1 : i ≠ 1 := by omega
    have h2 : i ≠ 2 := by omega
    have h3 : i ≠ 3 := by omega
    simp [main.apPosition, h1, h2, h3]
  · intro apNodeCount i hi
    exact apPositions_getElem? distanceAps apNodeCount i hi
  · intro hs i j hi hj hij
    have hq : (0 : ℚ) < (distanceAps : ℚ) := by exact_mod_cast hs
    have hne : (distanceAps : ℚ) / 2 + (distanceAps : ℚ) ≠ (distanceAps : ℚ) / 2 := by
      intro h
      linarith
    intro heq
    have hx := congrArg Point.x heq
    have hy := congrArg Point.y heq
    interval_cases i <;> interval_cases j <;>
      simp [main.apPosition] at hx hy hij <;> linarith

/-- C14 (as stated, fails when the station count wraps): with 3 access
points and 1431655766 stations per cell the `uint32_t` product
`apNodeCount * networkSize` is 2, so two stations exist, and the workload
loop passes the station index 2 to `staDevices.Get` for access point 2 and
builds one client per access point. -/
theorem C14_wrapped_count_counterexample :
    main.stationCount 3 1431655766 = 2
    ∧ main.workload 3 (main.stationCount 3 1431655766) 2
        = [(0, some [0]), (1, some [1]), (2, some [2])]
    ∧ ¬ (2 < main.stationCount 3 1431655766) := by
  have h : main.stationCount 3 1431655766 = 2 := by
    unfold main.stationCount
    norm_num
  refine ⟨h, ?_, by rw [h]; exact Nat.lt_irrefl 2⟩
  rw [h]
  decide

/-- C14 (amended): for `A ≥ 1` access points and `n` stations per cell with
`A * n < 2^32`, the station count is `A * n` and the workload loop gives
every access point `i` exactly one server and the clients of the stations
`k * A + i`, `k < n`.  Every such index is below the station count; station
`j` gets a client for access point `i` exactly when `j mod A = i`, which is
its recorded cell, the index of an existing access point; its client is
built exactly once; each server serves `n` clients. -/
theorem C14_workload_pairing (A n : Nat) (hA : 1 ≤ A) (hbound : A * n < 2 ^ 32) :
    main.stationCount A n = A * n
    ∧ (∀ fuel, n + 1 ≤ fuel →
        main.workload A (main.stationCount A n) fuel
          = (List.range A).map
              (fun i => (i, some ((List.range n).map (fun k => k * A + i)))))
    ∧ (∀ i k, i < A → k < n → k * A + i < main.stationCount A n)
    ∧ (∀ i j, i < A → j < main.stationCount A n →
        (j ∈ (List.range n).map (fun k => k * A + i) ↔ j % A = i))
    ∧ (∀ j, j < main.stationCount A n →
        main.assignBssNode A n (main.staNodeId A j) = some (j % A) ∧ j % A < A)
    ∧ (∀ i j, i < A → j < main.stationCount A n →
        ((List.range n).map (fun k => k * A + i)).count j = if j % A = i then 1 else 0)
    ∧ (∀ i : Nat, ((List.range n).map (fun k => k * A + i)).length = n) := by
  have hN := stationCount_of_lt A n hbound
  refine ⟨hN, ?_, ?_, ?_, ?_, ?_, ?_⟩
  · intro fuel hfuel
    rw [hN]
    exact workload_eq A n hA hbound fuel hfuel
  · intro i k hi hk
    rw [hN]
    have hle : (k + 1) * A ≤ n * A := Nat.mul_le_mul_right A (by omega)
    have hsucc : (k + 1) * A = k * A + A := by ring
    have hcomm : A * n = n * A := Nat.mul_comm A n
    omega
  · intro i j hi hj
    rw [hN] at hj
    exact mem_cellClients_iff A n i j hi hj
  · intro j hj
    exact ⟨assignBssNode_sta A n j hj, Nat.mod_lt _ (by omega)⟩
  · intro i j hi hj
    rw [hN] at hj
    by_cases hmod : j % A = i
    · rw [if_pos hmod]
      exact List.count_eq_one_of_mem (cellClients_nodup A n i hA)
        ((mem_cellClients_iff A n i j hi hj).mpr hmod)
    · rw [if_neg hmod]
      exact List.count_eq_zero_of_not_mem
        (fun hmem => hmod ((mem_cellClients_iff A n i j hi hj).mp hmem))
  · intro i
    simp

/-- Witness of C14 (amended): two access points with three stations each. -/
theorem C14_workload_pairing_witness :
    main.stationCount 2 3 = 2 * 3
    ∧ (∀ fuel, 3 + 1 ≤ fuel →
        main.workload 2 (main.stationCount 2 3) fuel
          = (List.range 2).map
              (fun i => (i, some ((List.range 3).map (fun k => k * 2 + i)))))
    ∧ (∀ i k, i < 2 → k < 3 → k * 2 + i < main.stationCount 2 3)
    ∧ (∀ i j, i < 2 → j < main.stationCount 2 3 →
        (j ∈ (List.range 3).map (fun k => k * 2 + i) ↔ j % 2 = i))
    ∧ (∀ j, j < main.stationCount 2 3 →
        main.assignBssNode 2 3 (main.staNodeId 2 j) = some (j % 2) ∧ j % 2 < 2)
    ∧ (∀ i j, i < 2 → j < main.stationCount 2 3 →
        ((List.range 3).map (fun k => k * 2 + i)).count j = if j % 2 = i then 1 else 0)
    ∧ (∀ i : Nat, ((List.range 3).map (fun k => k * 2 + i)).length = 3) :=
  C14_workload_pairing 2 3 (by decide) (by decide)

/-- C15: the standard selection aborts exactly when the standard is none of
11a, 11b, 11g, 11n, 11ac, 11ax, or is 11n with a frequency other than 2.4
and 5, or is 11ax with a frequency other than 2.4, 5 and 6.  For 11a, 11b,
11g and 11ac every frequency is accepted and overwritten with 5, 2.4, 2.4
and 5; the channel width becomes 20, 22, 20 for 11a, 11b, 11g. -/
theorem C15_standard_selection (standard : String) (frequency : ℚ) (channelWidth : Nat) :
    (isFatal (main.selectStandard standard frequency channelWidth)
      ↔ ((standard ≠ "11a" ∧ standard ≠ "11b" ∧ standard ≠ "11g" ∧ standard ≠ "11n"
            ∧ standard ≠ "11ac" ∧ standard ≠ "11ax")
          ∨ (standard = "11n" ∧ frequency ≠ 12 / 5 ∧ frequency ≠ 5)
          ∨ (standard = "11ax" ∧ frequency ≠ 12 / 5 ∧ frequency ≠ 5 ∧ frequency ≠ 6)))
    ∧ main.selectStandard "11a" frequency channelWidth
        = Except.ok ⟨WifiStandard.WIFI_STANDARD_80211a, 5, 20⟩
    ∧ main.selectStandard "11b" frequency channelWidth
        = Except.ok ⟨WifiStandard.WIFI_STANDARD_80211b, 12 / 5, 22⟩
    ∧ main.selectStandard "11g" frequency channelWidth
        = Except.ok ⟨WifiStandard.WIFI_STANDARD_80211g, 12 / 5, 20⟩
    ∧ main.selectStandard "11ac" frequency channelWidth
        = Except.ok ⟨WifiStandard.WIFI_STANDARD_80211ac, 5, channelWidth⟩
    ∧ (main.selectStandard "11n" frequency channelWidth
          = Except.ok ⟨WifiStandard.WIFI_STANDARD_80211n, frequency, channelWidth⟩
        ↔ (frequency = 12 / 5 ∨ frequency = 5))
    ∧ (main.selectStandard "11ax" frequency channelWidth
          = Except.ok ⟨WifiStandard.WIFI_STANDARD_80211ax, frequency, channelWidth⟩
        ↔ (frequency = 12 / 5 ∨ frequency = 5 ∨ frequency = 6)) := by
  refine ⟨?_, ?_, ?_, ?_, ?_, ?_, ?_⟩
  · unfold main.selectStandard isFatal
    by_cases ha : standard = "11a"
    · simp [ha]
    by_cases hb : standard = "11b"
    · simp [hb]
    by_cases hg : standard = "11g"
    · simp [hg]
    by_cases hn : standard = "11n"
    · by_cases h24 : frequency = 12 / 5
      · simp [hn, h24]
      · by_cases h5 : frequency = 5
        · simp [hn, h5]
        · simp [hn, h24, h5]
    by_cases hac : standard = "11ac"
    · simp [hac]
    by_cases hax : standard = "11ax"
    · by_cases h24 : frequency = 12 / 5
      · simp [hax, h24]
      · by_cases h5 : frequency = 5
        · simp [hax, h5]
        · by_cases h6 : frequency = 6
          · simp [hax, h6]
          · simp [hax, h24, h5, h6]
    · simp [ha, hb, hg, hn, hac, hax]
  · simp [main.selectStandard]
  · simp [main.selectStandard]
  · simp [main.selectStandard]
  · simp [main.selectStandard]
  · by_cases h24 : frequency = 12 / 5
    · simp [main.selectStandard, h24]
    · by_cases h5 : frequency = 5
      · simp [main.selectStandard, h5]
      · simp [main.selectStandard, h24, h5]
  · by_cases h24 : frequency = 12 / 5
    · simp [main.selectStandard, h24]
    · by_cases h5 : frequency = 5
      · simp [main.selectStandard, h5]
      · by_cases h6 : frequency = 6
        · simp [main.selectStandard, h6]
        · simp [main.selectStandard, h24, h5, h6]

/-- C16 (as stated, fails at the `uint32_t` limit): after 4294967295
association notifications in `exampleWorld` the counter is 4294967295, and
the next association notification makes it 0, so the counter decreased. -/
theorem C16_counter_wraps_counterexample :
    (Simulator.run Config.defaults exampleWorld
        (List.replicate 4294967295 (Input.associated 1 20))).associatedStas = 4294967295
    ∧ (Simulator.step Config.defaults
        (Simulator.run Config.defaults exampleWorld
          (List.replicate 4294967295 (Input.associated 1 20)))
        (Input.associated 1 20)).associatedStas = 0
    ∧ (Simulator.step Config.defaults
        (Simulator.run Config.defaults exampleWorld
          (List.replicate 4294967295 (Input.associated 1 20)))
        (Input.associated 1 20)).associatedStas
      < (Simulator.run Config.defaults exampleWorld
          (List.replicate 4294967295 (Input.associated 1 20))).associatedStas := by
  have hres : MacAddressToNodeId (exampleWorld.apNodes.map ApNode.address)
      (exampleWorld.apNodes.map ApNode.id) exampleWorld.m_staMacAddressToNodeId 20
      = Resolved.nodeId 1 := by
    simp [exampleWorld, main.initialWorld, exampleAp, MacAddressToNodeId,
      MacAddressToNodeId.loop, main.populateStaMap]
  have h1 := run_associated_replicate Config.defaults 1 20 1 4294967295 exampleWorld rfl
    (by simp [exampleWorld, main.initialWorld]) hres
  have h2 := run_associated_replicate Config.defaults 1 20 1 4294967296 exampleWorld rfl
    (by simp [exampleWorld, main.initialWorld]) hres
  have hsplit : Simulator.run Config.defaults exampleWorld
        (List.replicate 4294967296 (Input.associated 1 20))
      = Simulator.step Config.defaults
          (Simulator.run Config.defaults exampleWorld
            (List.replicate 4294967295 (Input.associated 1 20)))
          (Input.associated 1 20) :=
    run_replicate_succ Config.defaults exampleWorld (Input.associated 1 20) 4294967295
  have hz : exampleWorld.associatedStas = 0 := rfl
  rw [hz] at h1 h2
  rw [← hsplit, h1, h2]
  decide

/-- C16 (amended): an association notification increases `associatedStas`
by one modulo `2^32`, so by exactly one below the `uint32_t` limit, and a
deassociation notification leaves it unchanged and only increases
`deassociatedStas`; no input decreases the counter while it is below
`2^32 - 1`.  In `twoStationWorld`, after station A associates, deassociates
and associates again while station B never associates, the counter is 2 and
the first check takes the Stable branch although station B is not
associated. -/
theorem C16_counter_counts_notifications (cfg : Config) (w : World) (aid : Nat)
    (addr : Mac48Address) :
    (AssociatedSta w aid addr).associatedStas = (w.associatedStas + 1) % 2 ^ 32
    ∧ (w.associatedStas + 1 < 2 ^ 32 →
        (AssociatedSta w aid addr).associatedStas = w.associatedStas + 1)
    ∧ (DeAssociatedSta w aid addr).associatedStas = w.associatedStas
    ∧ (DeAssociatedSta w aid addr).deassociatedStas = (w.deassociatedStas + 1) % 2 ^ 32
    ∧ (w.associatedStas + 1 < 2 ^ 32 → ∀ input : Input,
        w.associatedStas ≤ (Simulator.step cfg w input).associatedStas)
    ∧ (Simulator.run Config.defaults twoStationWorld reassociationInputs).associatedStas = 2
    ∧ (Simulator.run Config.defaults twoStationWorld reassociationInputs).deassociatedStas = 1
    ∧ (Simulator.run Config.defaults twoStationWorld reassociationInputs).cout
        = [Printed.nodeAssociated 1, Printed.nodeAssociated 1, Printed.associatedNSta 2]
    ∧ enteredStable (Simulator.run Config.defaults twoStationWorld reassociationInputs)
    ∧ (Simulator.run Config.defaults twoStationWorld reassociationInputs).staNodes.map
        StaNode.isAssociated = [true, false] := by
  have hassoc := AssociatedSta_associatedStas w aid addr
  have hrun : Simulator.run Config.defaults twoStationWorld reassociationInputs
      = { twoStationWorld with
          associatedStas := 2
          deassociatedStas := 1
          now := 3 / 2
          events := []
          cout := [Printed.nodeAssociated 1, Printed.nodeAssociated 1,
            Printed.associatedNSta 2]
          staNodes := [{ exampleSta with isAssociated := true }, exampleSta]
          apNodes := [{ exampleAp with beaconInterval := stableBeaconInterval }] } := by
    simp [Simulator.run, Simulator.step, reassociationInputs, twoStationWorld,
      main.initialWorld, AssociatedSta, DeAssociatedSta, MacAddressToNodeId,
      MacAddressToNodeId.loop, main.populateStaMap, exampleAp, exampleSta,
      Simulator.dispatch, Simulator.earliest, firstCheckTime, stopTime, CheckAssociation,
      Config.defaults, stableBeaconInterval, List.modify]
    norm_num
  refine ⟨hassoc, ?_, rfl, rfl, ?_, ?_, ?_, ?_, ?_, ?_⟩
  · intro hlt
    rw [hassoc, Nat.mod_eq_of_lt hlt]
  · intro hlt input
    unfold Simulator.step
    split
    · exact Nat.le_refl _
    · cases input with
      | associated aid2 addy =>
        simp only []
        rw [AssociatedSta_associatedStas, Nat.mod_eq_of_lt hlt]
        omega
      | deassociated aid2 addr2 => exact Nat.le_refl _
      | staMacState i b => exact Nat.le_refl _
      | runNext =>
        simp only []
        split
        · exact Nat.le_refl _
        · unfold CheckAssociation
          split <;> exact Nat.le_refl _
  · rw [hrun]
  · rw [hrun]
  · rw [hrun]
  · rw [hrun]
    exact ⟨2, by simp⟩
  · rw [hrun]
    rfl

/-- C17: for samples in `[0,1)` the resampling loop of
`generateRandomPointInCircle` rejects a sample `u` exactly when
`radius² * u < 1`, so the function returns exactly at the first sample with
`radius² * u ≥ 1`.  When `|radius| ≤ 1` every candidate radius is below 1
and the function returns for no number of re-draws; if it returns for some
number of re-draws then `|radius| > 1`, and for `|radius| > 1` there is a
stream for which it returns. -/
theorem C17_resampling_terminates_only_above_one (radius : ℝ) (origin : Point ℝ)
    (samples : Nat → ℝ) (hs : ∀ j, 0 ≤ samples j ∧ samples j < 1) :
    (∀ j, candidateRadius (⟨Real.sqrt, Real.cos, Real.sin, Real.pi⟩ : CMath ℝ) radius
          samples j < 1 ↔ radius ^ 2 * samples j < 1)
    ∧ (∀ (fuel : Nat) (p : Point ℝ) (used : Nat),
        generateRandomPointInCircle (⟨Real.sqrt, Real.cos, Real.sin, Real.pi⟩ : CMath ℝ) radius
            origin samples fuel = some (p, used)
          ↔ ∃ k, k ≤ fuel ∧ (∀ j, j < k → radius ^ 2 * samples j < 1)
              ∧ 1 ≤ radius ^ 2 * samples k ∧ used = k + 2
              ∧ p = ⟨origin.x + Real.sqrt (radius ^ 2 * samples k)
                        * Real.cos (2 * Real.pi * samples (k + 1)),
                     origin.y + Real.sqrt (radius ^ 2 * samples k)
                        * Real.sin (2 * Real.pi * samples (k + 1))⟩)
    ∧ (|radius| ≤ 1 →
        (∀ j, candidateRadius (⟨Real.sqrt, Real.cos, Real.sin, Real.pi⟩ : CMath ℝ) radius
            samples j < 1)
        ∧ ∀ fuel : Nat,
            generateRandomPointInCircle (⟨Real.sqrt, Real.cos, Real.sin, Real.pi⟩ : CMath ℝ)
              radius origin samples fuel = none)
    ∧ ((∃ fuel : Nat,
          generateRandomPointInCircle (⟨Real.sqrt, Real.cos, Real.sin, Real.pi⟩ : CMath ℝ)
            radius origin samples fuel ≠ none) → 1 < |radius|)
    ∧ (1 < |radius| →
        ((0 : ℝ) ≤ 1 / radius ^ 2 ∧ 1 / radius ^ 2 < 1)
        ∧ generateRandomPointInCircle (⟨Real.sqrt, Real.cos, Real.sin, Real.pi⟩ : CMath ℝ)
            radius origin (fun _ => 1 / radius ^ 2) 0 ≠ none) := by
  have hsmall : |radius| ≤ 1 → ∀ j, radius ^ 2 * samples j < 1 := by
    intro hr j
    have hsq : radius ^ 2 ≤ 1 := by
      rw [← sq_abs]
      exact pow_le_one₀ (abs_nonneg radius) hr
    have h0 := (hs j).1
    have h1 := (hs j).2
    nlinarith [sq_nonneg radius]
  have hnone : |radius| ≤ 1 → ∀ fuel : Nat,
      generateRandomPointInCircle (⟨Real.sqrt, Real.cos, Real.sin, Real.pi⟩ : CMath ℝ)
        radius origin samples fuel = none := by
    intro hr fuel
    cases hres : generateRandomPointInCircle
        (⟨Real.sqrt, Real.cos, Real.sin, Real.pi⟩ : CMath ℝ) radius origin samples fuel with
    | none => rfl
    | some res =>
      obtain ⟨p, used⟩ := res
      obtain ⟨k, _, _, hexit, _, _⟩ :=
        (generateRandomPointInCircle_real_iff radius origin samples fuel p used).mp hres
      exact absurd (hsmall hr k) (not_lt.mpr hexit)
  refine ⟨candidateRadius_real_lt_one radius samples,
    generateRandomPointInCircle_real_iff radius origin samples, ?_, ?_, ?_⟩
  · intro hr
    exact ⟨fun j => (candidateRadius_real_lt_one radius samples j).mpr (hsmall hr j),
      hnone hr⟩
  · rintro ⟨fuel, hne⟩
    by_contra hle
    exact hne (hnone (not_lt.mp hle) fuel)
  · intro hr
    have hsq : 1 < radius ^ 2 := by
      rw [← sq_abs]
      exact one_lt_pow₀ hr (by norm_num)
    have hpos : (0 : ℝ) < radius ^ 2 := by linarith
    refine ⟨⟨by positivity, by rw [div_lt_one hpos]; exact hsq⟩, ?_⟩
    intro hnone2
    have hsome := (generateRandomPointInCircle_real_iff radius origin
      (fun _ => 1 / radius ^ 2) 0 _ 2).mpr
      ⟨0, le_refl 0, fun j hj => absurd hj (Nat.not_lt_zero j),
        by rw [mul_one_div, div_self (ne_of_gt hpos)], rfl, rfl⟩
    rw [hnone2] at hsome
    cases hsome

/-- Witness of C17: radius 1 and every sample 0.5. -/
theorem C17_resampling_terminates_only_above_one_witness :
    (∀ j, candidateRadius (⟨Real.sqrt, Real.cos, Real.sin, Real.pi⟩ : CMath ℝ) 1
          (fun _ => 1 / 2) j < 1 ↔ (1 : ℝ) ^ 2 * (1 / 2) < 1)
    ∧ (∀ (fuel : Nat) (p : Point ℝ) (used : Nat),
        generateRandomPointInCircle (⟨Real.sqrt, Real.cos, Real.sin, Real.pi⟩ : CMath ℝ) 1
            ⟨0, 0⟩ (fun _ => 1 / 2) fuel = some (p, used)
          ↔ ∃ k, k ≤ fuel ∧ (∀ j, j < k → (1 : ℝ) ^ 2 * (1 / 2) < 1)
              ∧ 1 ≤ (1 : ℝ) ^ 2 * (1 / 2) ∧ used = k + 2
              ∧ p = ⟨0 + Real.sqrt ((1 : ℝ) ^ 2 * (1 / 2))
                        * Real.cos (2 * Real.pi * (1 / 2)),
                     0 + Real.sqrt ((1 : ℝ) ^ 2 * (1 / 2))
                        * Real.sin (2 * Real.pi * (1 / 2))⟩)
    ∧ (|(1 : ℝ)| ≤ 1 →
        (∀ j, candidateRadius (⟨Real.sqrt, Real.cos, Real.sin, Real.pi⟩ : CMath ℝ) 1
            (fun _ => 1 / 2) j < 1)
        ∧ ∀ fuel : Nat,
            generateRandomPointInCircle (⟨Real.sqrt, Real.cos, Real.sin, Real.pi⟩ : CMath ℝ)
              1 ⟨0, 0⟩ (fun _ => 1 / 2) fuel = none)
    ∧ ((∃ fuel : Nat,
          generateRandomPointInCircle (⟨Real.sqrt, Real.cos, Real.sin, Real.pi⟩ : CMath ℝ)
            1 ⟨0, 0⟩ (fun _ => 1 / 2) fuel ≠ none) → 1 < |(1 : ℝ)|)
    ∧ (1 < |(1 : ℝ)| →
        ((0 : ℝ) ≤ 1 / (1 : ℝ) ^ 2 ∧ 1 / (1 : ℝ) ^ 2 < 1)
        ∧ generateRandomPointInCircle (⟨Real.sqrt, Real.cos, Real.sin, Real.pi⟩ : CMath ℝ)
            1 ⟨0, 0⟩ (fun _ => 1 / (1 : ℝ) ^ 2) 0 ≠ none) :=
  C17_resampling_terminates_only_above_one 1 ⟨0, 0⟩ (fun _ => 1 / 2) (fun _ => by norm_num)

/-- C18 (as stated, fails when the station count wraps): with 3 access
points and 1431655766 stations per cell only two stations exist; index
`0 + 1 * 3` of cell 0 is no station, and station 1, the only station of
cell 1, sits at angle `π`, not at `1 * (2π / (3 * 1431655766))`. -/
theorem C18_wrapped_count_counterexample :
    main.stationCount 3 1431655766 = 2
    ∧ (1 < 1431655766 ∧ ¬ (0 + 1 * 3 < main.stationCount 3 1431655766))
    ∧ main.assignBssNode 3 1431655766 (main.staNodeId 3 1) = some 1
    ∧ main.discAngle (⟨Real.sqrt, Real.cos, Real.sin, Real.pi⟩ : CMath ℝ)
        (main.stationCount 3 1431655766) 1 = Real.pi
    ∧ main.discAngle (⟨Real.sqrt, Real.cos, Real.sin, Real.pi⟩ : CMath ℝ)
        (main.stationCount 3 1431655766) 1
      ≠ ((1 : Nat) : ℝ) * (2 * Real.pi / (((3 : Nat) : ℝ) * ((1431655766 : Nat) : ℝ)))
          + ((0 : Nat) : ℝ) * (2 * Real.pi / ((1431655766 : Nat) : ℝ)) := by
  have h : main.stationCount 3 1431655766 = 2 := by
    unfold main.stationCount
    norm_num
  have hangle : main.discAngle (⟨Real.sqrt, Real.cos, Real.sin, Real.pi⟩ : CMath ℝ)
      (main.stationCount 3 1431655766) 1 = Real.pi := by
    rw [h]
    unfold main.discAngle
    norm_num
  refine ⟨h, ⟨by decide, by rw [h]; decide⟩, ?_, hangle, ?_⟩
  · have := assignBssNode_sta 3 1431655766 1 (by rw [h]; decide)
    simpa using this
  · rw [hangle]
    intro heq
    have hpi := Real.pi_pos
    norm_num at heq
    field_simp at heq
    linarith

/-- C18 (amended): under `disc` with `A ≥ 1` access points and `n ≥ 1`
stations per cell, `A * n < 2^32`, the stations of cell `c` are exactly the
indices `c + k * A`, `k < n`; station `c + k * A` is placed around access
point `c` at angle `c * (2π / (A * n)) + k * (2π / n)`, which lies in
`[0, 2π)`, is the angle of station `k * A` of cell 0 plus
`c * (2π / (A * n))`, and is `2π / n` below the angle of the next station
of the cell. -/
theorem C18_cell_angles (A n distanceAps : Nat) (radius : ℝ) (c : Nat) (hA : 1 ≤ A)
    (hn : 1 ≤ n) (hbound : A * n < 2 ^ 32) (hc : c < A) :
    (∀ j, j < main.stationCount A n →
        (main.assignBssNode A n (main.staNodeId A j) = some c
          ↔ ∃ k, k < n ∧ j = c + k * A))
    ∧ (∀ k, k < n →
        c + k * A < main.stationCount A n
        ∧ main.discAngle (⟨Real.sqrt, Real.cos, Real.sin, Real.pi⟩ : CMath ℝ)
              (main.stationCount A n) (c + k * A)
            = (c : ℝ) * (2 * Real.pi / ((A : ℝ) * (n : ℝ)))
                + (k : ℝ) * (2 * Real.pi / (n : ℝ))
        ∧ (main.discPlacement (⟨Real.sqrt, Real.cos, Real.sin, Real.pi⟩ : CMath ℝ) radius
              distanceAps A n)[c + k * A]?
            = some (some
                ⟨(main.apPosition distanceAps c : Point ℝ).x + radius * Real.cos
                    (main.discAngle (⟨Real.sqrt, Real.cos, Real.sin, Real.pi⟩ : CMath ℝ)
                      (main.stationCount A n) (c + k * A)),
                 (main.apPosition distanceAps c : Point ℝ).y + radius * Real.sin
                    (main.discAngle (⟨Real.sqrt, Real.cos, Real.sin, Real.pi⟩ : CMath ℝ)
                      (main.stationCount A n) (c + k * A))⟩)
        ∧ 0 ≤ main.discAngle (⟨Real.sqrt, Real.cos, Real.sin, Real.pi⟩ : CMath ℝ)
              (main.stationCount A n) (c + k * A)
        ∧ main.discAngle (⟨Real.sqrt, Real.cos, Real.sin, Real.pi⟩ : CMath ℝ)
              (main.stationCount A n) (c + k * A) < 2 * Real.pi
        ∧ main.discAngle (⟨Real.sqrt, Real.cos, Real.sin, Real.pi⟩ : CMath ℝ)
              (main.stationCount A n) (c + k * A)
            = main.discAngle (⟨Real.sqrt, Real.cos, Real.sin, Real.pi⟩ : CMath ℝ)
                (main.stationCount A n) (0 + k * A)
              + (c : ℝ) * (2 * Real.pi / ((A : ℝ) * (n : ℝ)))
        ∧ (k + 1 < n →
            main.discAngle (⟨Real.sqrt, Real.cos, Real.sin, Real.pi⟩ : CMath ℝ)
                (main.stationCount A n) (c + (k + 1) * A)
              - main.discAngle (⟨Real.sqrt, Real.cos, Real.sin, Real.pi⟩ : CMath ℝ)
                (main.stationCount A n) (c + k * A)
            = 2 * Real.pi / (n : ℝ))) := by
  have hN := stationCount_of_lt A n hbound
  have hAr : (0 : ℝ) < (A : ℝ) := by exact_mod_cast hA
  have hnr : (0 : ℝ) < (n : ℝ) := by exact_mod_cast hn
  have hpi := Real.pi_pos
  have hangle : ∀ j : Nat,
      main.discAngle (⟨Real.sqrt, Real.cos, Real.sin, Real.pi⟩ : CMath ℝ)
        (main.stationCount A n) j = (j : ℝ) * (2 * Real.pi / ((A : ℝ) * (n : ℝ))) := by
    intro j
    unfold main.discAngle
    rw [hN]
    push_cast
    rfl
  have hidx : ∀ k, k < n → c + k * A < A * n := by
    intro k hk
    have hle : (k + 1) * A ≤ n * A := Nat.mul_le_mul_right A (by omega)
    have hsucc : (k + 1) * A = k * A + A := by ring
    have hcomm : A * n = n * A := Nat.mul_comm A n
    omega
  constructor
  · intro j hj
    rw [assignBssNode_sta A n j hj]
    rw [hN] at hj
    constructor
    · intro h
      have hmod : j % A = c := Option.some.inj h
      refine ⟨j / A, Nat.div_lt_of_lt_mul hj, ?_⟩
      rw [← hmod, Nat.add_comm, Nat.mul_comm]
      exact (Nat.div_add_mod j A).symm
    · rintro ⟨k, _, rfl⟩
      rw [Nat.add_mul_mod_self_right, Nat.mod_eq_of_lt hc]
  · intro k hk
    have hlt := hidx k hk
    have hcell : (c + k * A) % A = c := by
      rw [Nat.add_mul_mod_self_right, Nat.mod_eq_of_lt hc]
    have hsplit : ((c + k * A : Nat) : ℝ) * (2 * Real.pi / ((A : ℝ) * (n : ℝ)))
        = (c : ℝ) * (2 * Real.pi / ((A : ℝ) * (n : ℝ)))
          + (k : ℝ) * (2 * Real.pi / (n : ℝ)) := by
      push_cast
      field_simp
      ring
    refine ⟨by rw [hN]; exact hlt, by rw [hangle, hsplit], ?_, ?_, ?_, ?_, ?_⟩
    · have h := discPlacement_getElem? (⟨Real.sqrt, Real.cos, Real.sin, Real.pi⟩ : CMath ℝ)
        radius distanceAps A n (c + k * A) hA (by rw [hN]; exact hlt)
      rw [hcell] at h
      exact h
    · rw [hangle]
      positivity
    · rw [hangle]
      have hjr : ((c + k * A : Nat) : ℝ) < (A : ℝ) * (n : ℝ) := by exact_mod_cast hlt
      have hpos : (0 : ℝ) < (A : ℝ) * (n : ℝ) := by positivity
      rw [mul_div_assoc', div_lt_iff₀ hpos]
      nlinarith
    · rw [hangle, hangle]
      push_cast
      ring
    · intro _
      rw [hangle, hangle]
      push_cast
      field_simp
      ring

/-- Witness of C18 (amended): two access points, three stations per cell,
cell 1. -/
theorem C18_cell_angles_witness :
    (∀ j, j < main.stationCount 2 3 →
        (main.assignBssNode 2 3 (main.staNodeId 2 j) = some 1
          ↔ ∃ k, k < 3 ∧ j = 1 + k * 2))
    ∧ (∀ k, k < 3 →
        1 + k * 2 < main.stationCount 2 3
        ∧ main.discAngle (⟨Real.sqrt, Real.cos, Real.sin, Real.pi⟩ : CMath ℝ)
              (main.stationCount 2 3) (1 + k * 2)
            = ((1 : Nat) : ℝ) * (2 * Real.pi / (((2 : Nat) : ℝ) * ((3 : Nat) : ℝ)))
                + (k : ℝ) * (2 * Real.pi / ((3 : Nat) : ℝ))
        ∧ (main.discPlacement (⟨Real.sqrt, Real.cos, Real.sin, Real.pi⟩ : CMath ℝ) (11 / 10)
              2 2 3)[1 + k * 2]?
            = some (some
                ⟨(main.apPosition 2 1 : Point ℝ).x + 11 / 10 * Real.cos
                    (main.discAngle (⟨Real.sqrt, Real.cos, Real.sin, Real.pi⟩ : CMath ℝ)
                      (main.stationCount 2 3) (1 + k * 2)),
                 (main.apPosition 2 1 : Point ℝ).y + 11 / 10 * Real.sin
                    (main.discAngle (⟨Real.sqrt, Real.cos, Real.sin, Real.pi⟩ : CMath ℝ)
                      (main.stationCount 2 3) (1 + k * 2))⟩)
        ∧ 0 ≤ main.discAngle (⟨Real.sqrt, Real.cos, Real.sin, Real.pi⟩ : CMath ℝ)
              (main.stationCount 2 3) (1 + k * 2)
        ∧ main.discAngle (⟨Real.sqrt, Real.cos, Real.sin, Real.pi⟩ : CMath ℝ)
              (main.stationCount 2 3) (1 + k * 2) < 2 * Real.pi
        ∧ main.discAngle (⟨Real.sqrt, Real.cos, Real.sin, Real.pi⟩ : CMath ℝ)
              (main.stationCount 2 3) (1 + k * 2)
            = main.discAngle (⟨Real.sqrt, Real.cos, Real.sin, Real.pi⟩ : CMath ℝ)
                (main.stationCount 2 3) (0 + k * 2)
              + ((1 : Nat) : ℝ) * (2 * Real.pi / (((2 : Nat) : ℝ) * ((3 : Nat) : ℝ)))
        ∧ (k + 1 < 3 →
            main.discAngle (⟨Real.sqrt, Real.cos, Real.sin, Real.pi⟩ : CMath ℝ)
                (main.stationCount 2 3) (1 + (k + 1) * 2)
              - main.discAngle (⟨Real.sqrt, Real.cos, Real.sin, Real.pi⟩ : CMath ℝ)
                (main.stationCount 2 3) (1 + k * 2)
            = 2 * Real.pi / ((3 : Nat) : ℝ))) :=
  C18_cell_angles 2 3 2 (11 / 10) 1 (by decide) (by decide) (by decide) (by decide)

end MultiBss
